import Mathlib

/-!
Verification of the boundary-communication core of the Parthenon AMR framework.

Shallow embedding of:
  * `src/bvals/cc/bvals_utils.hpp` — boundary enumeration (`ForEachBoundary`),
    channel addressing (`SendKey` / `ReceiveKey`), the buffer cache
    (`BuildBufferCache`, `CheckSendBufferCacheForRebuild`,
    `CheckReceiveBufferCacheForRebuild`, `RebuildBufferCache`);
  * `src/bvals/fc/bvals_fc.cpp` — face-centered geometric pack/unpack
    (`LoadBoundaryBufferSameLevel`, `SetBoundarySameLevel`) and the
    flux-correction buffer sizing (`ComputeFluxCorrectionBufferSize`,
    `SetupPersistentMPI`).

Machine integers are modelled as `Int` (values are far from overflow in all
claims considered), fallible vector accesses return `Option`, and externally
defined helpers (the `CommBuffer` channel class, `BufferUtility::PackData` /
`UnpackData`) are modelled from the specification where noted.
-/

namespace Parthenon

/-- Connectivity type of a neighbor relation (`NeighborConnect` in the mesh
headers): derived from the count of nonzero offsets. -/
inductive NeighborConnect where
  | face
  | edge
  | corner
  | non
deriving DecidableEq, Repr

/-- `NeighborIndexes`: offset vector, sub-quadrant selectors and connectivity
type of a neighbor relation. -/
structure NeighborIndexes where
  ox1 : Int
  ox2 : Int
  ox3 : Int
  fi1 : Int
  fi2 : Int
  type : NeighborConnect
deriving DecidableEq, Repr

/-- `SimpleNeighborBlock` (`nb.snb`): global id, owning rank and refinement
level of the remote block. -/
structure SimpleNeighborBlock where
  gid : Int
  rank : Int
  level : Int
deriving DecidableEq, Repr

/-- `NeighborBlock`: one directed neighbor relation. -/
structure NeighborBlock where
  snb : SimpleNeighborBlock
  ni : NeighborIndexes
deriving DecidableEq, Repr

/-- `CellVariable`: a named field; `fillGhost` is `IsSet(Metadata::FillGhost)`,
`allocated` is `IsAllocated()`. -/
structure CellVariable where
  label : String
  fillGhost : Bool
  allocated : Bool
deriving DecidableEq, Repr

/-- `MeshBlock`: global id (`gid`), refinement level (`loc.level`) and the
neighbor list (`pbval->neighbor[0..nneighbor)`). -/
structure MeshBlock where
  gid : Int
  level : Int
  neighbors : List NeighborBlock
deriving DecidableEq, Repr

/-- One block of a `MeshData` container together with its block data's
cell-variable vector (`rc->GetCellVariableVector()`). -/
structure BlockData where
  pmb : MeshBlock
  vars : List CellVariable
deriving DecidableEq, Repr

/-- `MeshData<Real>` restricted to what the boundary code reads, plus the
ambient process rank `Globals::my_rank` passed explicitly. -/
structure MeshData where
  blocks : List BlockData
  myRank : Int
deriving DecidableEq, Repr

/-- The channel address tuple `(sender_id, receiver_id, label, location_idx)`. -/
abbrev Key := Int × Int × String × Int

/-- `SendKey` (bvals_utils.hpp:106-113). -/
def SendKey (pmb : MeshBlock) (nb : NeighborBlock) (pcv : CellVariable) : Key :=
  (pmb.gid, nb.snb.gid, pcv.label,
    (1 + nb.ni.ox1) + 3 * (1 + nb.ni.ox2 + 3 * (1 + nb.ni.ox3)))

/-- `ReceiveKey` (bvals_utils.hpp:115-122). -/
def ReceiveKey (pmb : MeshBlock) (nb : NeighborBlock) (pcv : CellVariable) : Key :=
  (nb.snb.gid, pmb.gid, pcv.label,
    (1 - nb.ni.ox1) + 3 * (1 - nb.ni.ox2 + 3 * (1 - nb.ni.ox3)))

/-- C1: for a physical interface between blocks A and B, where A's relation
toward B carries offsets `(ox1,ox2,ox3)`, each in `{-1,0,1}`, and B's relation
toward A carries the negated offsets, `SendKey` at A equals `ReceiveKey` at B
and `ReceiveKey` at A equals `SendKey` at B, for every connectivity type. -/
theorem SendKey_ReceiveKey_symmetric (A B : MeshBlock) (v : CellVariable)
    (nbA nbB : NeighborBlock)
    (hA : nbA.snb.gid = B.gid) (hB : nbB.snb.gid = A.gid)
    (h1 : nbA.ni.ox1 ∈ ([-1, 0, 1] : List Int))
    (h2 : nbA.ni.ox2 ∈ ([-1, 0, 1] : List Int))
    (h3 : nbA.ni.ox3 ∈ ([-1, 0, 1] : List Int))
    (hm1 : nbB.ni.ox1 = -nbA.ni.ox1) (hm2 : nbB.ni.ox2 = -nbA.ni.ox2)
    (hm3 : nbB.ni.ox3 = -nbA.ni.ox3) :
    SendKey A nbA v = ReceiveKey B nbB v ∧ ReceiveKey A nbA v = SendKey B nbB v := by
  unfold SendKey ReceiveKey
  rw [hA, hB, hm1, hm2, hm3]
  constructor <;> (refine Prod.ext rfl (Prod.ext rfl (Prod.ext rfl ?_)) <;> ring)

/-- Witness for C1 at a concrete interface: offsets `(1, -1, 0)`. -/
theorem SendKey_ReceiveKey_symmetric_witness :
    SendKey ⟨0, 0, []⟩ ⟨⟨1, 0, 0⟩, ⟨1, -1, 0, 0, 0, .edge⟩⟩ ⟨"fld", true, true⟩ =
      ReceiveKey ⟨1, 0, []⟩ ⟨⟨0, 0, 0⟩, ⟨-1, 1, 0, 0, 0, .edge⟩⟩ ⟨"fld", true, true⟩ ∧
    ReceiveKey ⟨0, 0, []⟩ ⟨⟨1, 0, 0⟩, ⟨1, -1, 0, 0, 0, .edge⟩⟩ ⟨"fld", true, true⟩ =
      SendKey ⟨1, 0, []⟩ ⟨⟨0, 0, 0⟩, ⟨-1, 1, 0, 0, 0, .edge⟩⟩ ⟨"fld", true, true⟩ :=
  SendKey_ReceiveKey_symmetric ⟨0, 0, []⟩ ⟨1, 0, []⟩ ⟨"fld", true, true⟩
    ⟨⟨1, 0, 0⟩, ⟨1, -1, 0, 0, 0, .edge⟩⟩ ⟨⟨0, 0, 0⟩, ⟨-1, 1, 0, 0, 0, .edge⟩⟩
    rfl rfl (by decide) (by decide) (by decide) rfl rfl rfl

/-- `BoundaryType` subset tags (`local_` stands for `BoundaryType::local`,
which is a reserved word here). -/
inductive BoundaryType where
  | any
  | local_
  | nonlocal
  | flxcor_send
  | flxcor_recv
deriving DecidableEq, Repr

/-- The neighbor filter applied inside the `ForEachBoundary` loop
(bvals_utils.hpp:82-98): `continue` conditions, negated. -/
def neighborMatches (bound : BoundaryType) (myRank : Int) (pmb : MeshBlock)
    (nb : NeighborBlock) : Bool :=
  match bound with
  | .any => true
  | .local_ => nb.snb.rank == myRank
  | .nonlocal => nb.snb.rank != myRank
  | .flxcor_send =>
      (nb.snb.level == pmb.level - 1) &&
      (nb.ni.ox1.natAbs + nb.ni.ox2.natAbs + nb.ni.ox3.natAbs == 1)
  | .flxcor_recv =>
      (nb.snb.level - 1 == pmb.level) &&
      (nb.ni.ox1.natAbs + nb.ni.ox2.natAbs + nb.ni.ox3.natAbs == 1)

/-- One visited boundary: the `(block, neighbor, variable)` triple passed to
the callback of `ForEachBoundary`. -/
abbrev Boundary := MeshBlock × NeighborBlock × CellVariable

/-- `ForEachBoundary` (bvals_utils.hpp:73-104) with a callback that never
breaks out: the list of visited `(block, neighbor, variable)` triples, in
loop order (blocks, then `FillGhost` variables, then neighbors). -/
def ForEachBoundary (bound : BoundaryType) (md : MeshData) : List Boundary :=
  md.blocks.flatMap fun rc =>
    rc.vars.flatMap fun v =>
      if v.fillGhost then
        (rc.pmb.neighbors.filter (neighborMatches bound md.myRank rc.pmb)).map
          fun nb => (rc.pmb, nb, v)
      else []

/-- All `(block, neighbor, variable)` triples of a `MeshData`, unfiltered. -/
def allTriples (md : MeshData) : List Boundary :=
  md.blocks.flatMap fun rc =>
    rc.vars.flatMap fun v =>
      rc.pmb.neighbors.map fun nb => (rc.pmb, nb, v)

/-- Number of nonzero components of the offset vector. -/
def numNonzeroOffsets (ni : NeighborIndexes) : Nat :=
  (if ni.ox1 ≠ 0 then 1 else 0) + (if ni.ox2 ≠ 0 then 1 else 0) +
    (if ni.ox3 ≠ 0 then 1 else 0)

/-- The subset-tag filter as the spec states it (§4.1): `any` no filter,
`local` same rank, `nonlocal` different rank, `flux-correction-send` exactly
one level coarser and face-type (exactly one nonzero offset),
`flux-correction-receive` exactly one level finer and face-type. -/
def specNeighborMatches (bound : BoundaryType) (myRank : Int) (pmb : MeshBlock)
    (nb : NeighborBlock) : Prop :=
  match bound with
  | .any => True
  | .local_ => nb.snb.rank = myRank
  | .nonlocal => nb.snb.rank ≠ myRank
  | .flxcor_send => nb.snb.level = pmb.level - 1 ∧ numNonzeroOffsets nb.ni = 1
  | .flxcor_recv => nb.snb.level = pmb.level + 1 ∧ numNonzeroOffsets nb.ni = 1

instance (bound : BoundaryType) (myRank : Int) (pmb : MeshBlock)
    (nb : NeighborBlock) : Decidable (specNeighborMatches bound myRank pmb nb) := by
  cases bound <;> unfold specNeighborMatches <;> infer_instance

/-- For offsets in `{-1,0,1}`, the code's face test `|ox1|+|ox2|+|ox3| == 1`
coincides with "exactly one nonzero offset component". -/
lemma absSum_eq_one_iff_numNonzero (ni : NeighborIndexes)
    (h1 : ni.ox1 ∈ ([-1, 0, 1] : List Int)) (h2 : ni.ox2 ∈ ([-1, 0, 1] : List Int))
    (h3 : ni.ox3 ∈ ([-1, 0, 1] : List Int)) :
    (ni.ox1.natAbs + ni.ox2.natAbs + ni.ox3.natAbs = 1) ↔ numNonzeroOffsets ni = 1 := by
  obtain ⟨o1, o2, o3, f1, f2, ty⟩ := ni
  simp only [List.mem_cons, List.mem_singleton, List.not_mem_nil, or_false] at h1 h2 h3
  unfold numNonzeroOffsets
  rcases h1 with rfl | rfl | rfl <;> rcases h2 with rfl | rfl | rfl <;>
    rcases h3 with rfl | rfl | rfl <;> simp

/-- The code's neighbor filter agrees with the spec's subset-tag description
whenever the offsets are in `{-1,0,1}`. -/
lemma neighborMatches_iff_spec (bound : BoundaryType) (myRank : Int)
    (pmb : MeshBlock) (nb : NeighborBlock)
    (h1 : nb.ni.ox1 ∈ ([-1, 0, 1] : List Int))
    (h2 : nb.ni.ox2 ∈ ([-1, 0, 1] : List Int))
    (h3 : nb.ni.ox3 ∈ ([-1, 0, 1] : List Int)) :
    neighborMatches bound myRank pmb nb = true ↔
      specNeighborMatches bound myRank pmb nb := by
  cases bound <;>
    simp only [neighborMatches, specNeighborMatches, Bool.and_eq_true, beq_iff_eq,
      bne_iff_ne, ne_eq]
  · exact ⟨fun h => h.imp_right (absSum_eq_one_iff_numNonzero nb.ni h1 h2 h3).1,
      fun h => h.imp_right (absSum_eq_one_iff_numNonzero nb.ni h1 h2 h3).2⟩
  · constructor
    · rintro ⟨hl, hc⟩
      exact ⟨by omega, (absSum_eq_one_iff_numNonzero nb.ni h1 h2 h3).1 hc⟩
    · rintro ⟨hl, hc⟩
      exact ⟨by omega, (absSum_eq_one_iff_numNonzero nb.ni h1 h2 h3).2 hc⟩

/-- C7: the boundary enumerator visits exactly the `(block, neighbor,
variable)` triples where the variable is flagged for ghost exchange and the
neighbor matches the subset tag as the spec describes it, provided all offsets
lie in `{-1,0,1}`. -/
theorem ForEachBoundary_visits_iff (bound : BoundaryType) (md : MeshData)
    (t : Boundary)
    (hval : ∀ bd ∈ md.blocks, ∀ nb ∈ bd.pmb.neighbors,
      nb.ni.ox1 ∈ ([-1, 0, 1] : List Int) ∧ nb.ni.ox2 ∈ ([-1, 0, 1] : List Int) ∧
        nb.ni.ox3 ∈ ([-1, 0, 1] : List Int)) :
    t ∈ ForEachBoundary bound md ↔
      t ∈ allTriples md ∧ t.2.2.fillGhost = true ∧
        specNeighborMatches bound md.myRank t.1 t.2.1 := by
  unfold ForEachBoundary allTriples
  simp only [List.mem_flatMap]
  constructor
  · rintro ⟨bd, hbd, v, hv, ht⟩
    by_cases hfg : v.fillGhost = true
    · rw [if_pos hfg] at ht
      obtain ⟨nb, hnb, rfl⟩ := List.mem_map.mp ht
      obtain ⟨hnb_mem, hmatch⟩ := List.mem_filter.mp hnb
      obtain ⟨h1, h2, h3⟩ := hval bd hbd nb hnb_mem
      exact ⟨⟨bd, hbd, v, hv, List.mem_map.mpr ⟨nb, hnb_mem, rfl⟩⟩, hfg,
        (neighborMatches_iff_spec bound md.myRank bd.pmb nb h1 h2 h3).1 hmatch⟩
    · rw [if_neg hfg] at ht
      exact absurd ht (List.not_mem_nil _)
  · rintro ⟨⟨bd, hbd, v, hv, ht⟩, hfg, hspec⟩
    obtain ⟨nb, hnb, rfl⟩ := List.mem_map.mp ht
    obtain ⟨h1, h2, h3⟩ := hval bd hbd nb hnb
    refine ⟨bd, hbd, v, hv, ?_⟩
    rw [if_pos hfg]
    exact List.mem_map.mpr ⟨nb, List.mem_filter.mpr
      ⟨hnb, (neighborMatches_iff_spec bound md.myRank bd.pmb nb h1 h2 h3).2 hspec⟩, rfl⟩

/-- Witness for C7: a two-neighbor block under the `flux-correction-receive`
tag; only the one-level-finer face neighbor is visited. -/
theorem ForEachBoundary_visits_iff_witness :
    ((⟨2, 0, [⟨⟨5, 1, 1⟩, ⟨1, 0, 0, 0, 0, .face⟩⟩]⟩, ⟨⟨5, 1, 1⟩, ⟨1, 0, 0, 0, 0, .face⟩⟩,
        ⟨"u", true, true⟩) : Boundary) ∈
      ForEachBoundary .flxcor_recv
        ⟨[⟨⟨2, 0, [⟨⟨5, 1, 1⟩, ⟨1, 0, 0, 0, 0, .face⟩⟩]⟩, [⟨"u", true, true⟩]⟩], 0⟩ :=
  (ForEachBoundary_visits_iff .flxcor_recv
      ⟨[⟨⟨2, 0, [⟨⟨5, 1, 1⟩, ⟨1, 0, 0, 0, 0, .face⟩⟩]⟩, [⟨"u", true, true⟩]⟩], 0⟩
      (⟨2, 0, [⟨⟨5, 1, 1⟩, ⟨1, 0, 0, 0, 0, .face⟩⟩]⟩, ⟨⟨5, 1, 1⟩, ⟨1, 0, 0, 0, 0, .face⟩⟩,
        ⟨"u", true, true⟩)
      (by decide)).mpr (by decide)

/-- Interior extents of a block (`pmb->block_size`). -/
structure BlockSize where
  nx1 : Int
  nx2 : Int
  nx3 : Int
deriving DecidableEq, Repr

/-- `FaceCenteredBoundaryVariable::ComputeFluxCorrectionBufferSize`
(bvals_fc.cpp:138-172).  The 3-D edge branch is a sequence of non-exclusive
assignments in the source, of which the last one taken wins. -/
def ComputeFluxCorrectionBufferSize (bs : BlockSize) (ni : NeighborIndexes) : Int :=
  if ni.type = .face then
    if bs.nx3 > 1 then
      if ni.ox1 ≠ 0 then (bs.nx2 + 1) * bs.nx3 + bs.nx2 * (bs.nx3 + 1)
      else if ni.ox2 ≠ 0 then (bs.nx1 + 1) * bs.nx3 + bs.nx1 * (bs.nx3 + 1)
      else (bs.nx1 + 1) * bs.nx2 + bs.nx1 * (bs.nx2 + 1)
    else if bs.nx2 > 1 then
      if ni.ox1 ≠ 0 then (bs.nx2 + 1) + bs.nx2 else (bs.nx1 + 1) + bs.nx1
    else 2
  else if ni.type = .edge then
    if bs.nx3 > 1 then
      if ni.ox1 = 0 then bs.nx1
      else if ni.ox2 = 0 then bs.nx2
      else if ni.ox3 = 0 then bs.nx3
      else 0
    else if bs.nx2 > 1 then 1
    else 0
  else 0

/-- Whether `FaceCenteredBoundaryVariable::SetupPersistentMPI` reaches the
flux-correction channel setup for a neighbor relation: a corner relation hits
`continue` and is skipped (bvals_fc.cpp:934-936). -/
def setupReachesFluxCorrection (ni : NeighborIndexes) : Bool :=
  ni.type == .face || ni.type == .edge

/-- C6: in 3-D (`nx3 > 1`), a face relation's flux-correction buffer size is
`(nx2+1)*nx3 + nx2*(nx3+1)` for an offset along axis 1, with the symmetric
formulas for axes 2 and 3; a corner relation's computed size is not positive
and channel setup skips corner relations. -/
theorem ComputeFluxCorrectionBufferSize_3d (bs : BlockSize) (ni : NeighborIndexes)
    (h3d : bs.nx3 > 1) :
    (ni.type = .face →
      (ni.ox1 ≠ 0 →
        ComputeFluxCorrectionBufferSize bs ni =
          (bs.nx2 + 1) * bs.nx3 + bs.nx2 * (bs.nx3 + 1)) ∧
      (ni.ox1 = 0 → ni.ox2 ≠ 0 →
        ComputeFluxCorrectionBufferSize bs ni =
          (bs.nx1 + 1) * bs.nx3 + bs.nx1 * (bs.nx3 + 1)) ∧
      (ni.ox1 = 0 → ni.ox2 = 0 →
        ComputeFluxCorrectionBufferSize bs ni =
          (bs.nx1 + 1) * bs.nx2 + bs.nx1 * (bs.nx2 + 1))) ∧
    (ni.type = .corner →
      ¬(0 < ComputeFluxCorrectionBufferSize bs ni) ∧
        setupReachesFluxCorrection ni = false) := by
  unfold ComputeFluxCorrectionBufferSize setupReachesFluxCorrection
  constructor
  · intro hface
    refine ⟨fun h1 => ?_, fun h1 h2 => ?_, fun h1 h2 => ?_⟩ <;>
      simp [hface, h3d, h1]
    · simp [h2]
    · simp [h2]
  · intro hcorner
    simp [hcorner]

/-- Witness for C6: a `4 × 6 × 8` block with an `x1`-face neighbor. -/
theorem ComputeFluxCorrectionBufferSize_3d_witness :
    ComputeFluxCorrectionBufferSize ⟨4, 6, 8⟩ ⟨1, 0, 0, 0, 0, .face⟩ =
      (6 + 1) * 8 + 6 * (8 + 1) :=
  ((ComputeFluxCorrectionBufferSize_3d ⟨4, 6, 8⟩ ⟨1, 0, 0, 0, 0, .face⟩
      (by decide)).1 rfl).1 (by decide)

/-! ## Channels and the buffer cache

`CommBuffer` itself is external to the files under verification; its state
machine and the operations the cache code calls on it are modelled from the
spec (§4.3, §4.4).  Channel pointers are modelled as indices into a flat
store, and the `comm_map` registry as an association list from `Key` to such
an index. -/

/-- Modelled from the spec (§4.4): the channel states.  `received_null` is the
explicit "counterpart's variable was unallocated" signal. -/
inductive BufferState where
  | available
  | sending
  | sent
  | receiving
  | received
  | received_null
deriving DecidableEq, Repr

/-- Modelled from the spec (§4.3, §4.4): a channel endpoint.  `bufId`
identifies the backing buffer resource (`buffer()`), `state` the state-machine
state (`GetState()`), `active` whether the underlying buffer is currently
reserved. -/
structure CommBuffer where
  bufId : Nat
  state : BufferState
  active : Bool
deriving DecidableEq, Repr

instance : Inhabited CommBuffer := ⟨⟨0, .available, false⟩⟩

/-- Modelled from the spec (§4.4): `IsAvailableForWrite` tests exactly the
`available` state. -/
def IsAvailableForWrite (b : CommBuffer) : Bool := b.state == .available

/-- Modelled from the spec (§4.3): `Allocate` reserves the channel's buffer
(a no-op when already reserved; the backing resource is kept, matching the
unchanged-resource premise of the cache-stability claims). -/
def bufAllocate (b : CommBuffer) : CommBuffer := { b with active := true }

/-- Modelled from the spec (§4.3): `Free` releases the reservation. -/
def bufFree (b : CommBuffer) : CommBuffer := { b with active := false }

/-- Modelled from the spec (§4.3a): `UsingSameResource` is identity of the
backing buffer resources. -/
def UsingSameResource (a b : Nat) : Bool := a == b

/-- The flat store of channels; a channel pointer is an index into it. -/
abbrev Store := List CommBuffer

/-- One entry of `cache.bnd_info_h`: the transfer descriptor fields the
validation code reads — the recorded backing resource (`.buf`) and the
recorded allocation flag (`.allocated`). -/
structure BndInfo where
  buf : Nat
  allocated : Bool
deriving DecidableEq, Repr

instance : Inhabited BndInfo := ⟨⟨0, false⟩⟩

/-- `BvarsSubCache_t`: the channel-pointer list, the enumeration-index-to-slot
remap, and the host-side transfer-descriptor array. -/
structure BvarsSubCache where
  buf_vec : List Nat
  idx_vec : List Nat
  bnd_info_h : List BndInfo
deriving DecidableEq, Repr

/-- `recvr_idx` (bvals_utils.hpp:154): `27 * get<1>(key) + get<3>(key)`. -/
def recvrIdx (k : Key) : Int := 27 * k.2.1 + k.2.2.2

/-- The `key_order` list built by the first `ForEachBoundary` pass of
`BuildBufferCache` (bvals_utils.hpp:146-157), before the shuffle: triples
`(recvr_idx, boundary_idx, key)` in enumeration order. -/
def keyOrder (bound : BoundaryType) (md : MeshData)
    (KeyFunc : MeshBlock → NeighborBlock → CellVariable → Key) :
    List (Int × Nat × Key) :=
  (ForEachBoundary bound md).enum.map fun nt =>
    let key := KeyFunc nt.2.1 nt.2.2.1 nt.2.2.2
    (recvrIdx key, nt.1, key)

/-- The second loop of `BuildBufferCache` (bvals_utils.hpp:169-175): push the
channel pointer for each key and write `idx_vec[boundary_idx] = buff_idx++`.
A key absent from the registry is the fatal "Boundary communicator does not
exist" condition (bvals_utils.hpp:150). -/
def buildLoop (commMap : List (Key × Nat)) :
    List (Int × Nat × Key) → List Nat → List Nat → Nat →
      Option (List Nat × List Nat)
  | [], bufVec, idxVec, _ => some (bufVec, idxVec)
  | t :: rest, bufVec, idxVec, buffIdx =>
      match List.lookup t.2.2 commMap with
      | Option.none => Option.none
      | some ptr =>
          buildLoop commMap rest (bufVec ++ [ptr]) (idxVec.set t.2.1 buffIdx)
            (buffIdx + 1)

/-- `BuildBufferCache` (bvals_utils.hpp:138-176), parameterized by the
post-shuffle `key_order` list (the shuffle at lines 165-167 is an arbitrary
permutation of `keyOrder`): clears `buf_vec`, sizes `idx_vec` to the
boundary count, and runs the fill loop. -/
def BuildBufferCache (commMap : List (Key × Nat)) (ko : List (Int × Nat × Key)) :
    Option BvarsSubCache :=
  (buildLoop commMap ko [] (List.replicate ko.length 0) 0).map fun bi =>
    { buf_vec := bi.1, idx_vec := bi.2, bnd_info_h := [] }

lemma buildLoop_lengths (commMap : List (Key × Nat)) :
    ∀ (ts : List (Int × Nat × Key)) (bv iv : List Nat) (bi : Nat) (bv' iv' : List Nat),
      buildLoop commMap ts bv iv bi = some (bv', iv') →
      bv'.length = bv.length + ts.length ∧ iv'.length = iv.length := by
  intro ts
  induction ts with
  | nil =>
    intro bv iv bi bv' iv' h
    obtain ⟨rfl, rfl⟩ : bv = bv' ∧ iv = iv' := by simpa [buildLoop] using h
    simp
  | cons t rest ih =>
    intro bv iv bi bv' iv' h
    unfold buildLoop at h
    cases hl : List.lookup t.2.2 commMap with
    | none => rw [hl] at h; cases h
    | some ptr =>
      rw [hl] at h
      obtain ⟨h1, h2⟩ := ih _ _ _ _ _ h
      refine ⟨?_, ?_⟩
      · rw [h1]; simp; omega
      · rw [h2]; simp

lemma buildLoop_preserve (commMap : List (Key × Nat)) :
    ∀ (ts : List (Int × Nat × Key)) (bv iv : List Nat) (bi : Nat) (bv' iv' : List Nat)
      (q : Nat),
      buildLoop commMap ts bv iv bi = some (bv', iv') →
      (∀ t ∈ ts, t.2.1 ≠ q) → iv'[q]? = iv[q]? := by
  intro ts
  induction ts with
  | nil =>
    intro bv iv bi bv' iv' q h _
    obtain ⟨rfl, rfl⟩ : bv = bv' ∧ iv = iv' := by simpa [buildLoop] using h
    rfl
  | cons t rest ih =>
    intro bv iv bi bv' iv' q h hq
    unfold buildLoop at h
    cases hl : List.lookup t.2.2 commMap with
    | none => rw [hl] at h; cases h
    | some ptr =>
      rw [hl] at h
      rw [ih _ _ _ _ _ q h fun r hr => hq r (List.mem_cons_of_mem t hr)]
      exact List.getElem?_set_ne (hq t (List.mem_cons_self t rest))

lemma buildLoop_get (commMap : List (Key × Nat)) :
    ∀ (ts : List (Int × Nat × Key)) (bv iv : List Nat) (bi : Nat) (bv' iv' : List Nat),
      buildLoop commMap ts bv iv bi = some (bv', iv') →
      (ts.map fun t => t.2.1).Nodup →
      (∀ t ∈ ts, t.2.1 < iv.length) →
      ∀ j (hj : j < ts.length), iv'[(ts.get ⟨j, hj⟩).2.1]? = some (bi + j) := by
  intro ts
  induction ts with
  | nil => intro _ _ _ _ _ _ _ _ j hj; exact absurd hj (by simp)
  | cons t rest ih =>
    intro bv iv bi bv' iv' h hnd hrange j hj
    unfold buildLoop at h
    cases hl : List.lookup t.2.2 commMap with
    | none => rw [hl] at h; cases h
    | some ptr =>
      rw [hl] at h
      rw [List.map_cons, List.nodup_cons] at hnd
      obtain ⟨hhead, hrest⟩ := hnd
      cases j with
      | zero =>
        have hne : ∀ r ∈ rest, r.2.1 ≠ t.2.1 := by
          intro r hr hcontra
          exact hhead (hcontra ▸ List.mem_map_of_mem _ hr)
        show iv'[t.2.1]? = some (bi + 0)
        rw [buildLoop_preserve commMap rest _ _ _ _ _ _ h hne]
        have hlt : t.2.1 < iv.length := hrange t (List.mem_cons_self t rest)
        simp [List.getElem?_set_self', List.getElem?_eq_getElem hlt]
      | succ j' =>
        have h2 := ih _ _ _ _ _ h hrest
          (fun r hr => by rw [List.length_set]; exact hrange r (List.mem_cons_of_mem t hr))
          j' (by simpa using Nat.lt_of_succ_lt_succ hj)
        simp only [List.get_cons_succ]
        rw [show bi + (j' + 1) = bi + 1 + j' from by omega]
        exact h2

/-- Structural properties guaranteed by `BuildBufferCache`, shared by the
claims that consume the cache. -/
lemma buildCache_props (bound : BoundaryType) (md : MeshData)
    (KeyFunc : MeshBlock → NeighborBlock → CellVariable → Key)
    (commMap : List (Key × Nat)) (ko : List (Int × Nat × Key)) (cache : BvarsSubCache)
    (hko : ko.Perm (keyOrder bound md KeyFunc))
    (hbuild : BuildBufferCache commMap ko = some cache) :
    cache.buf_vec.length = (ForEachBoundary bound md).length ∧
    cache.idx_vec.length = (ForEachBoundary bound md).length ∧
    cache.idx_vec.Perm (List.range (ForEachBoundary bound md).length) := by
  set N := (ForEachBoundary bound md).length with hN
  unfold BuildBufferCache at hbuild
  cases hloop : buildLoop commMap ko [] (List.replicate ko.length 0) 0 with
  | none => rw [hloop] at hbuild; cases hbuild
  | some bi =>
    rw [hloop] at hbuild
    obtain rfl : ({ buf_vec := bi.1, idx_vec := bi.2, bnd_info_h := [] } : BvarsSubCache)
        = cache := by simpa using hbuild
    have hkey : (keyOrder bound md KeyFunc).map (fun t => t.2.1) = List.range N := by
      unfold keyOrder
      rw [List.map_map]
      exact List.enum_map_fst _
    have hps : (ko.map fun t => t.2.1).Perm (List.range N) := by
      rw [← hkey]; exact hko.map _
    have hkolen : ko.length = N := by
      have h1 := hps.length_eq
      simpa using h1
    have hpsnd : (ko.map fun t => t.2.1).Nodup :=
      hps.nodup_iff.mpr (List.nodup_range N)
    have hmemlt : ∀ t ∈ ko, t.2.1 < N := by
      intro t ht
      have : t.2.1 ∈ ko.map fun t => t.2.1 := List.mem_map_of_mem _ ht
      exact List.mem_range.mp (hps.mem_iff.mp this)
    obtain ⟨hbv, hiv⟩ := buildLoop_lengths commMap ko _ _ _ _ _ hloop
    have hbvN : bi.1.length = N := by simpa [hkolen] using hbv
    have hivN : bi.2.length = N := by simpa [hkolen] using hiv
    have hget : ∀ j (hj : j < ko.length), bi.2[(ko.get ⟨j, hj⟩).2.1]? = some j := by
      intro j hj
      have := buildLoop_get commMap ko _ _ _ _ _ hloop hpsnd
        (fun t ht => by rw [List.length_replicate]; exact hkolen ▸ hmemlt t ht) j hj
      simpa using this
    -- every position p < N is hit by some enumeration index
    have hsurj : ∀ p, p < N → ∃ j, ∃ hj : j < ko.length, (ko.get ⟨j, hj⟩).2.1 = p := by
      intro p hp
      have hmem : p ∈ ko.map fun t => t.2.1 :=
        hps.mem_iff.mpr (List.mem_range.mpr hp)
      obtain ⟨n, hn⟩ := List.mem_iff_get.mp hmem
      refine ⟨n.val, ?_, ?_⟩
      · have := n.isLt; simpa using this
      · rw [← hn]; simp [List.get_map]
    have hvalat : ∀ p (hp : p < bi.2.length) j (hj : j < ko.length),
        (ko.get ⟨j, hj⟩).2.1 = p → bi.2.get ⟨p, hp⟩ = j := by
      intro p hp j hj hpj
      have h1 := hget j hj
      rw [hpj] at h1
      rw [List.getElem?_eq_getElem hp] at h1
      rw [List.get_eq_getElem]
      exact Option.some.inj h1
    have hnd : bi.2.Nodup := by
      rw [List.nodup_iff_injective_get]
      intro a b hab
      obtain ⟨ja, hja, hpa⟩ := hsurj a.val (hivN ▸ a.isLt)
      obtain ⟨jb, hjb, hpb⟩ := hsurj b.val (hivN ▸ b.isLt)
      have h1 : bi.2.get a = ja := hvalat a.val a.isLt ja hja hpa
      have h2 : bi.2.get b = jb := hvalat b.val b.isLt jb hjb hpb
      have : ja = jb := by rw [← h1, ← h2, hab]
      subst this
      exact Fin.ext (by rw [← hpa, ← hpb])
    have hmem : ∀ x, x ∈ bi.2 ↔ x ∈ List.range N := by
      intro x
      constructor
      · intro hx
        obtain ⟨⟨p, hp⟩, hpx⟩ := List.mem_iff_get.mp hx
        obtain ⟨j, hj, hpj⟩ := hsurj p (hivN ▸ hp)
        have hv : bi.2.get ⟨p, hp⟩ = j := hvalat p hp j hj hpj
        rw [hv] at hpx
        exact List.mem_range.mpr (hpx ▸ hkolen ▸ hj)
      · intro hx
        have hxlt : x < ko.length := hkolen ▸ List.mem_range.mp hx
        exact List.getElem?_mem (hget x hxlt)
    refine ⟨hbvN, hivN, ?_⟩
    exact List.perm_of_nodup_nodup_toFinset_eq hnd (List.nodup_range N)
      (Finset.ext fun x => by simp only [List.mem_toFinset]; exact hmem x)

/-- C8: after `BuildBufferCache` runs over a subset whose enumeration yields
`N` boundaries, `buf_vec` holds exactly `N` channel pointers and `idx_vec`
has exactly `N` entries forming a permutation of `{0,…,N-1}`, for every
shuffle order `ko` of the enumeration's `key_order` list. -/
theorem BuildBufferCache_counts_and_perm (bound : BoundaryType) (md : MeshData)
    (KeyFunc : MeshBlock → NeighborBlock → CellVariable → Key)
    (commMap : List (Key × Nat)) (ko : List (Int × Nat × Key)) (cache : BvarsSubCache)
    (hko : ko.Perm (keyOrder bound md KeyFunc))
    (hbuild : BuildBufferCache commMap ko = some cache) :
    cache.buf_vec.length = (ForEachBoundary bound md).length ∧
    cache.idx_vec.length = (ForEachBoundary bound md).length ∧
    cache.idx_vec.Perm (List.range (ForEachBoundary bound md).length) :=
  buildCache_props bound md KeyFunc commMap ko cache hko hbuild

/-- Witness for C8: a one-boundary mesh, identity shuffle. -/
theorem BuildBufferCache_counts_and_perm_witness :
    (BuildBufferCache [((0, 1, "u", 14), 0)] [(41, 0, (0, 1, "u", 14))]).map
        (fun c => (c.buf_vec.length, c.idx_vec.length, decide (c.idx_vec.Perm [0]))) =
      some (1, 1, true) := by
  have h := BuildBufferCache_counts_and_perm .any
    ⟨[⟨⟨0, 0, [⟨⟨1, 0, 0⟩, ⟨1, 0, 0, 0, 0, .face⟩⟩]⟩, [⟨"u", true, true⟩]⟩], 0⟩
    SendKey [((0, 1, "u", 14), 0)] [(41, 0, (0, 1, "u", 14))]
    ⟨[0], [0], []⟩ (by decide) (by decide)
  simp only [show (BuildBufferCache [((0, 1, "u", 14), 0)] [(41, 0, (0, 1, "u", 14))])
      = some ⟨[0], [0], []⟩ from by decide, Option.map_some]
  have h3 : ([0] : List Nat).Perm [0] := h.2.2
  simp [decide_eq_true h3]

/-- Default descriptor used to express `getD` reads of `bnd_info_h`. -/
def bndInfoDefault : BndInfo := ⟨0, false⟩

/-- The loop body sequence of `CheckSendBufferCacheForRebuild`
(bvals_utils.hpp:185-205), iterated over the enumerated boundaries with the
running counters `(nbound, rebuild, other_communication_unfinished)` and the
channel store threaded through (`buf.Allocate()` / `buf.Free()` mutate the
channel in place).  The unchecked `idx_vec[nbound]`, `buf_vec[ibuf]` and
channel-pointer accesses return `none` when out of range. -/
def checkSendLoop (cache : BvarsSubCache) :
    List Boundary → Store → Nat → Bool → Bool →
      Option (Bool × Nat × Bool × Store)
  | [], store, nbound, rebuild, unfinished => some (rebuild, nbound, unfinished, store)
  | (_, _, v) :: rest, store, nbound, rebuild, unfinished =>
      match cache.idx_vec[nbound]? with
      | Option.none => Option.none
      | some ibuf =>
          match cache.buf_vec[ibuf]? with
          | Option.none => Option.none
          | some bptr =>
              match store[bptr]? with
              | Option.none => Option.none
              | some buf =>
                  let unfinished := unfinished || !(IsAvailableForWrite buf)
                  let buf := if v.allocated then bufAllocate buf else bufFree buf
                  let store := store.set bptr buf
                  let rebuild :=
                    if ibuf < cache.bnd_info_h.length then
                      rebuild ||
                        !(UsingSameResource (cache.bnd_info_h.getD ibuf bndInfoDefault).buf
                            buf.bufId)
                    else true
                  checkSendLoop cache rest store (nbound + 1) rebuild unfinished

/-- `CheckSendBufferCacheForRebuild` (bvals_utils.hpp:178-207): re-enumerate
the subset's boundaries and return
`(rebuild, nbound, other_communication_unfinished)` together with the mutated
channel store. -/
def CheckSendBufferCacheForRebuild (bound : BoundaryType) (md : MeshData)
    (cache : BvarsSubCache) (store : Store) : Option (Bool × Nat × Bool × Store) :=
  checkSendLoop cache (ForEachBoundary bound md) store 0 false false

/-- The loop body sequence of `CheckReceiveBufferCacheForRebuild`
(bvals_utils.hpp:216-235). -/
def checkRecvLoop (cache : BvarsSubCache) (store : Store) :
    List Boundary → Nat → Bool → Option (Bool × Nat)
  | [], nbound, rebuild => some (rebuild, nbound)
  | _ :: rest, nbound, rebuild =>
      match cache.idx_vec[nbound]? with
      | Option.none => Option.none
      | some ibuf =>
          match cache.buf_vec[ibuf]? with
          | Option.none => Option.none
          | some bptr =>
              match store[bptr]? with
              | Option.none => Option.none
              | some buf =>
                  let rebuild :=
                    if ibuf < cache.bnd_info_h.length then
                      let bi := cache.bnd_info_h.getD ibuf bndInfoDefault
                      let rebuild := rebuild ||
                        !(UsingSameResource bi.buf buf.bufId)
                      let rebuild :=
                        if buf.state == .received && !bi.allocated then true else rebuild
                      if buf.state == .received_null && bi.allocated then true else rebuild
                    else true
                  checkRecvLoop cache store rest (nbound + 1) rebuild

/-- `CheckReceiveBufferCacheForRebuild` (bvals_utils.hpp:209-237): fetches the
sub-cache for the given subset tag but — exactly as the source does at line
216 — always re-enumerates the `flux-correction-receive` subset, whatever
subset the cache was built for. -/
def CheckReceiveBufferCacheForRebuild (bound : BoundaryType) (md : MeshData)
    (cache : BvarsSubCache) (store : Store) : Option (Bool × Nat) :=
  checkRecvLoop cache store (ForEachBoundary .flxcor_recv md) 0 false

/-- The loop of `RebuildBufferCache` (bvals_utils.hpp:252-259): write
`bnd_info_h(ibuf) = BndInfoCreator(pmb, nb, v, buf_vec[ibuf])` for each
enumerated boundary.  An out-of-range descriptor write is `none`. -/
def rebuildLoop (cache : BvarsSubCache)
    (creator : Boundary → CommBuffer → BndInfo) (store : Store) :
    List Boundary → List BndInfo → Nat → Option (List BndInfo)
  | [], bnd, _ => some bnd
  | t :: rest, bnd, ibound =>
      match cache.idx_vec[ibound]? with
      | Option.none => Option.none
      | some ibuf =>
          match cache.buf_vec[ibuf]? with
          | Option.none => Option.none
          | some bptr =>
              match store[bptr]? with
              | Option.none => Option.none
              | some buf =>
                  if ibuf < bnd.length then
                    rebuildLoop cache creator store rest
                      (bnd.set ibuf (creator t buf)) (ibound + 1)
                  else Option.none

/-- `RebuildBufferCache` (bvals_utils.hpp:244-261): size the descriptor array
to `nbound` and fill it from a fresh enumeration through the caller-supplied
factory. -/
def RebuildBufferCache (bound : BoundaryType) (md : MeshData)
    (cache : BvarsSubCache) (store : Store) (nbound : Nat)
    (creator : Boundary → CommBuffer → BndInfo) : Option BvarsSubCache :=
  (rebuildLoop cache creator store (ForEachBoundary bound md)
      (List.replicate nbound bndInfoDefault) 0).map fun bnd =>
    { cache with bnd_info_h := bnd }

lemma checkSendLoop_none_of_short (cache : BvarsSubCache) :
    ∀ (ts : List Boundary) (store : Store) (n : Nat) (rb uf : Bool),
      n ≤ cache.idx_vec.length → cache.idx_vec.length < n + ts.length →
      checkSendLoop cache ts store n rb uf = Option.none := by
  intro ts
  induction ts with
  | nil => intro store n rb uf hn hlt; simp at hlt; omega
  | cons t rest ih =>
    intro store n rb uf hn hlt
    obtain ⟨b, nb, v⟩ := t
    unfold checkSendLoop
    rcases Nat.lt_or_ge n cache.idx_vec.length with hcase | hcase
    · cases hidx : cache.idx_vec[n]? with
      | none => simp [checkSendLoop, hidx]
      | some ibuf =>
        cases hbv : cache.buf_vec[ibuf]? with
        | none => simp [checkSendLoop, hidx, hbv]
        | some bptr =>
          cases hst : store[bptr]? with
          | none => simp [checkSendLoop, hidx, hbv, hst]
          | some buf =>
            simp only [checkSendLoop, hidx, hbv, hst]
            exact ih _ _ _ _ (by omega)
              (by simp only [List.length_cons] at hlt; omega)
    · unfold checkSendLoop
      rw [List.getElem?_eq_none hcase]

lemma checkRecvLoop_none_of_short (cache : BvarsSubCache) (store : Store) :
    ∀ (ts : List Boundary) (n : Nat) (rb : Bool),
      n ≤ cache.idx_vec.length → cache.idx_vec.length < n + ts.length →
      checkRecvLoop cache store ts n rb = Option.none := by
  intro ts
  induction ts with
  | nil => intro n rb hn hlt; simp at hlt; omega
  | cons t rest ih =>
    intro n rb hn hlt
    unfold checkRecvLoop
    rcases Nat.lt_or_ge n cache.idx_vec.length with hcase | hcase
    · cases hidx : cache.idx_vec[n]? with
      | none => simp [checkRecvLoop, hidx]
      | some ibuf =>
        cases hbv : cache.buf_vec[ibuf]? with
        | none => simp [checkRecvLoop, hidx, hbv]
        | some bptr =>
          cases hst : store[bptr]? with
          | none => simp [checkRecvLoop, hidx, hbv, hst]
          | some buf =>
            simp only [checkRecvLoop, hidx, hbv, hst]
            exact ih _ _ (by omega)
              (by simp only [List.length_cons] at hlt; omega)
    · unfold checkRecvLoop
      rw [List.getElem?_eq_none hcase]

/-- C10: both validation routines read `idx_vec` at each successive
enumeration position with no bounds check, so whenever the enumeration they
perform yields more boundaries than `idx_vec` has entries, the remap lookup
goes out of bounds and validation is not well-defined (here: `none`).  The
receive-side routine enumerates the `flux-correction-receive` subset —
the one its source hard-codes. -/
theorem checkCache_requires_idx_vec_cover (md : MeshData) (cache : BvarsSubCache)
    (store : Store) :
    (∀ bound, cache.idx_vec.length < (ForEachBoundary bound md).length →
      CheckSendBufferCacheForRebuild bound md cache store = Option.none) ∧
    (cache.idx_vec.length < (ForEachBoundary .flxcor_recv md).length →
      ∀ bound, CheckReceiveBufferCacheForRebuild bound md cache store = Option.none) := by
  constructor
  · intro bound hlt
    exact checkSendLoop_none_of_short cache _ store 0 false false (Nat.zero_le _)
      (by omega)
  · intro hlt bound
    exact checkRecvLoop_none_of_short cache store _ 0 false (Nat.zero_le _)
      (by omega)

/-- Witness for C10: one enumerated boundary, empty remap vector. -/
theorem checkCache_requires_idx_vec_cover_witness :
    CheckSendBufferCacheForRebuild .any
        ⟨[⟨⟨0, 0, [⟨⟨1, 0, 1⟩, ⟨1, 0, 0, 0, 0, .face⟩⟩]⟩, [⟨"u", true, true⟩]⟩], 0⟩
        ⟨[], [], []⟩ [] = Option.none ∧
    CheckReceiveBufferCacheForRebuild .any
        ⟨[⟨⟨0, 0, [⟨⟨1, 0, 1⟩, ⟨1, 0, 0, 0, 0, .face⟩⟩]⟩, [⟨"u", true, true⟩]⟩], 0⟩
        ⟨[], [], []⟩ [] = Option.none :=
  ⟨(checkCache_requires_idx_vec_cover
      ⟨[⟨⟨0, 0, [⟨⟨1, 0, 1⟩, ⟨1, 0, 0, 0, 0, .face⟩⟩]⟩, [⟨"u", true, true⟩]⟩], 0⟩
      ⟨[], [], []⟩ []).1 .any (by decide),
   (checkCache_requires_idx_vec_cover
      ⟨[⟨⟨0, 0, [⟨⟨1, 0, 1⟩, ⟨1, 0, 0, 0, 0, .face⟩⟩]⟩, [⟨"u", true, true⟩]⟩], 0⟩
      ⟨[], [], []⟩ []).2 (by decide) .any⟩

/-- The channel that validation step `n` dereferences:
`*(cache.buf_vec[cache.idx_vec[n]])`. -/
def chanAt (cache : BvarsSubCache) (store : Store) (n : Nat) : CommBuffer :=
  store.getD (cache.buf_vec.getD (cache.idx_vec.getD n 0) 0) default

lemma set_preserves_state_bufId (store : Store) (bptr : Nat) (buf buf' : CommBuffer)
    (hget : store[bptr]? = some buf) (hst : buf'.state = buf.state)
    (hid : buf'.bufId = buf.bufId) (p : Nat) :
    ((store.set bptr buf').getD p default).state = (store.getD p default).state ∧
    ((store.set bptr buf').getD p default).bufId = (store.getD p default).bufId := by
  rcases eq_or_ne p bptr with rfl | hne
  · have hlt : p < store.length := by
      by_contra hh
      rw [List.getElem?_eq_none (by omega)] at hget
      cases hget
    rw [List.getD_eq_getElem?_getD, List.getD_eq_getElem?_getD,
      List.getElem?_set_self' , hget]
    simp [hst, hid, List.getElem?_eq_getElem hlt]
  · rw [List.getD_eq_getElem?_getD, List.getD_eq_getElem?_getD,
      List.getElem?_set_ne (by omega)]
    exact ⟨rfl, rfl⟩

lemma allocFree_state (v : Bool) (buf : CommBuffer) :
    (if v then bufAllocate buf else bufFree buf).state = buf.state := by
  cases v <;> simp [bufAllocate, bufFree]

lemma allocFree_bufId (v : Bool) (buf : CommBuffer) :
    (if v then bufAllocate buf else bufFree buf).bufId = buf.bufId := by
  cases v <;> simp [bufAllocate, bufFree]

lemma checkSendLoop_unfinished (cache : BvarsSubCache) :
    ∀ (ts : List Boundary) (store : Store) (n : Nat) (rb uf : Bool)
      (res : Bool × Nat × Bool × Store),
      checkSendLoop cache ts store n rb uf = some res →
      (res.2.2.1 = true ↔ uf = true ∨ ∃ j < ts.length,
        IsAvailableForWrite (chanAt cache store (n + j)) = false) := by
  intro ts
  induction ts with
  | nil =>
    intro store n rb uf res h
    obtain rfl : ((rb, n, uf, store) : Bool × Nat × Bool × Store) = res := by
      simpa [checkSendLoop] using h
    simp
  | cons t rest ih =>
    intro store n rb uf res h
    obtain ⟨b, nb, v⟩ := t
    cases hidx : cache.idx_vec[n]? with
    | none => simp only [checkSendLoop, hidx] at h; cases h
    | some ibuf =>
      cases hbv : cache.buf_vec[ibuf]? with
      | none => simp only [checkSendLoop, hidx, hbv] at h; cases h
      | some bptr =>
        cases hst : store[bptr]? with
        | none => simp only [checkSendLoop, hidx, hbv, hst] at h; cases h
        | some buf =>
          simp only [checkSendLoop, hidx, hbv, hst] at h
          set buf' := if v.allocated then bufAllocate buf else bufFree buf with hbuf'
          have hrec := ih _ _ _ _ _ h
          have hpres : ∀ m, IsAvailableForWrite (chanAt cache (store.set bptr buf') m)
              = IsAvailableForWrite (chanAt cache store m) := by
            intro m
            unfold chanAt IsAvailableForWrite
            rw [(set_preserves_state_bufId store bptr buf buf' hst
              (allocFree_state v.allocated buf) (allocFree_bufId v.allocated buf) _).1]
          have hg1 : cache.idx_vec.getD n 0 = ibuf := by
            rw [List.getD_eq_getElem?_getD, hidx]; rfl
          have hg2 : cache.buf_vec.getD ibuf 0 = bptr := by
            rw [List.getD_eq_getElem?_getD, hbv]; rfl
          have hg3 : store.getD bptr default = buf := by
            rw [List.getD_eq_getElem?_getD, hst]; rfl
          have hchan0 : chanAt cache store n = buf := by
            unfold chanAt
            rw [hg1, hg2, hg3]
          rw [hrec]
          constructor
          · rintro (huf | ⟨j, hj, hja⟩)
            · rcases Bool.or_eq_true_iff.mp huf with h1 | h1
              · exact Or.inl h1
              · refine Or.inr ⟨0, by simp, ?_⟩
                rw [Nat.add_zero, hchan0]
                simpa using h1
            · exact Or.inr ⟨j + 1, by simpa using Nat.succ_lt_succ hj,
                by rw [← hpres (n + (j + 1))]; rw [show n + (j + 1) = n + 1 + j from by omega];
                   exact hja⟩
          · rintro (huf | ⟨j, hj, hja⟩)
            · exact Or.inl (by simp [huf])
            · cases j with
              | zero =>
                refine Or.inl ?_
                rw [Nat.add_zero, hchan0] at hja
                simp [hja]
              | succ j' =>
                refine Or.inr ⟨j', by simpa using Nat.lt_of_succ_lt_succ hj, ?_⟩
                rw [hpres (n + 1 + j'), show n + 1 + j' = n + (j' + 1) from by omega]
                exact hja

/-- C5: send-side validation reports `sender_has_unfinished_transfer = true`
iff at least one enumerated boundary's channel is not available for write
(`IsAvailableForWrite` false) at entry. -/
theorem CheckSend_unfinished_iff (bound : BoundaryType) (md : MeshData)
    (cache : BvarsSubCache) (store : Store) (rb : Bool) (nbound : Nat) (uf : Bool)
    (store' : Store)
    (h : CheckSendBufferCacheForRebuild bound md cache store
      = some (rb, nbound, uf, store')) :
    uf = true ↔ ∃ j < (ForEachBoundary bound md).length,
      IsAvailableForWrite (chanAt cache store j) = false := by
  have := checkSendLoop_unfinished cache (ForEachBoundary bound md) store 0 false false
    (rb, nbound, uf, store') h
  simpa using this

/-- Witness for C5: a single boundary whose channel is stuck in `sending`. -/
theorem CheckSend_unfinished_iff_witness :
    (true = true ↔ ∃ j < 1,
      IsAvailableForWrite (chanAt ⟨[0], [0], []⟩ [⟨5, .sending, true⟩] j) = false) :=
  CheckSend_unfinished_iff .any
    ⟨[⟨⟨0, 0, [⟨⟨1, 0, 0⟩, ⟨1, 0, 0, 0, 0, .face⟩⟩]⟩, [⟨"u", true, true⟩]⟩], 0⟩
    ⟨[0], [0], []⟩ [⟨5, .sending, true⟩] true 1 true [⟨5, .sending, true⟩] (by decide)

/-- The backing buffer resource of the channel held at cache slot `s`
(`cache.buf_vec[s]->buffer()`). -/
def chanBufIdAt (cache : BvarsSubCache) (store : Store) (s : Nat) : Nat :=
  (store.getD (cache.buf_vec.getD s 0) default).bufId

lemma getD_set_of_ne {α : Type} (l : List α) (i s : Nat) (x d : α)
    (h : s ≠ i) : (l.set i x).getD s d = l.getD s d := by
  rw [List.getD_eq_getElem?_getD, List.getD_eq_getElem?_getD,
    List.getElem?_set_ne (by omega)]

lemma getD_set_self {α : Type} (l : List α) (i : Nat) (x d : α)
    (h : i < l.length) : (l.set i x).getD i d = x := by
  rw [List.getD_eq_getElem?_getD]
  simp [List.getElem?_set_self', List.getElem?_eq_getElem h]

lemma checkSendLoop_nbound (cache : BvarsSubCache) :
    ∀ (ts : List Boundary) (store : Store) (n : Nat) (rb uf : Bool)
      (res : Bool × Nat × Bool × Store),
      checkSendLoop cache ts store n rb uf = some res → res.2.1 = n + ts.length := by
  intro ts
  induction ts with
  | nil =>
    intro store n rb uf res h
    obtain rfl : ((rb, n, uf, store) : Bool × Nat × Bool × Store) = res := by
      simpa [checkSendLoop] using h
    simp
  | cons t rest ih =>
    intro store n rb uf res h
    obtain ⟨b, nb, v⟩ := t
    cases hidx : cache.idx_vec[n]? with
    | none => simp only [checkSendLoop, hidx] at h; cases h
    | some ibuf =>
      cases hbv : cache.buf_vec[ibuf]? with
      | none => simp only [checkSendLoop, hidx, hbv] at h; cases h
      | some bptr =>
        cases hst : store[bptr]? with
        | none => simp only [checkSendLoop, hidx, hbv, hst] at h; cases h
        | some buf =>
          simp only [checkSendLoop, hidx, hbv, hst] at h
          have := ih _ _ _ _ _ h
          rw [this]
          simp only [List.length_cons]
          omega

lemma checkSendLoop_store_length (cache : BvarsSubCache) :
    ∀ (ts : List Boundary) (store : Store) (n : Nat) (rb uf : Bool)
      (res : Bool × Nat × Bool × Store),
      checkSendLoop cache ts store n rb uf = some res →
      res.2.2.2.length = store.length := by
  intro ts
  induction ts with
  | nil =>
    intro store n rb uf res h
    obtain rfl : ((rb, n, uf, store) : Bool × Nat × Bool × Store) = res := by
      simpa [checkSendLoop] using h
    rfl
  | cons t rest ih =>
    intro store n rb uf res h
    obtain ⟨b, nb, v⟩ := t
    cases hidx : cache.idx_vec[n]? with
    | none => simp only [checkSendLoop, hidx] at h; cases h
    | some ibuf =>
      cases hbv : cache.buf_vec[ibuf]? with
      | none => simp only [checkSendLoop, hidx, hbv] at h; cases h
      | some bptr =>
        cases hst : store[bptr]? with
        | none => simp only [checkSendLoop, hidx, hbv, hst] at h; cases h
        | some buf =>
          simp only [checkSendLoop, hidx, hbv, hst] at h
          have := ih _ _ _ _ _ h
          rw [this, List.length_set]

lemma rebuildLoop_length (cache : BvarsSubCache)
    (creator : Boundary → CommBuffer → BndInfo) (store : Store) :
    ∀ (ts : List Boundary) (bnd : List BndInfo) (i0 : Nat) (bnd' : List BndInfo),
      rebuildLoop cache creator store ts bnd i0 = some bnd' →
      bnd'.length = bnd.length := by
  intro ts
  induction ts with
  | nil =>
    intro bnd i0 bnd' h
    obtain rfl : bnd = bnd' := by simpa [rebuildLoop] using h
    rfl
  | cons t rest ih =>
    intro bnd i0 bnd' h
    cases hidx : cache.idx_vec[i0]? with
    | none => simp only [rebuildLoop, hidx] at h; cases h
    | some ibuf =>
      cases hbv : cache.buf_vec[ibuf]? with
      | none => simp only [rebuildLoop, hidx, hbv] at h; cases h
      | some bptr =>
        cases hst : store[bptr]? with
        | none => simp only [rebuildLoop, hidx, hbv, hst] at h; cases h
        | some buf =>
          simp only [rebuildLoop, hidx, hbv, hst] at h
          split at h
          · have := ih _ _ _ h
            rw [this, List.length_set]
          · cases h

lemma rebuildLoop_records (cache : BvarsSubCache)
    (creator : Boundary → CommBuffer → BndInfo) (store : Store)
    (hcreator : ∀ t b, (creator t b).buf = b.bufId) :
    ∀ (ts : List Boundary) (bnd : List BndInfo) (i0 : Nat) (bnd' : List BndInfo),
      rebuildLoop cache creator store ts bnd i0 = some bnd' →
      ∀ s, ((bnd.getD s bndInfoDefault).buf = chanBufIdAt cache store s ∨
            ∃ j < ts.length, cache.idx_vec.getD (i0 + j) 0 = s) →
        (bnd'.getD s bndInfoDefault).buf = chanBufIdAt cache store s := by
  intro ts
  induction ts with
  | nil =>
    intro bnd i0 bnd' h s hs
    obtain rfl : bnd = bnd' := by simpa [rebuildLoop] using h
    rcases hs with hs | ⟨j, hj, _⟩
    · exact hs
    · simp at hj
  | cons t rest ih =>
    intro bnd i0 bnd' h s hs
    cases hidx : cache.idx_vec[i0]? with
    | none => simp only [rebuildLoop, hidx] at h; cases h
    | some ibuf =>
      cases hbv : cache.buf_vec[ibuf]? with
      | none => simp only [rebuildLoop, hidx, hbv] at h; cases h
      | some bptr =>
        cases hst : store[bptr]? with
        | none => simp only [rebuildLoop, hidx, hbv, hst] at h; cases h
        | some buf =>
          simp only [rebuildLoop, hidx, hbv, hst] at h
          split at h
          case isTrue hlen =>
            have hslot : ((bnd.set ibuf (creator t buf)).getD ibuf bndInfoDefault).buf
                = chanBufIdAt cache store ibuf := by
              rw [getD_set_self _ _ _ _ hlen, hcreator]
              unfold chanBufIdAt
              have hg2 : cache.buf_vec.getD ibuf 0 = bptr := by
                rw [List.getD_eq_getElem?_getD, hbv]; rfl
              have hg3 : store.getD bptr default = buf := by
                rw [List.getD_eq_getElem?_getD, hst]; rfl
              rw [hg2, hg3]
            apply ih _ _ _ h s
            rcases hs with hbase | ⟨j, hj, hsj⟩
            · rcases eq_or_ne s ibuf with rfl | hne
              · exact Or.inl hslot
              · exact Or.inl (by rw [getD_set_of_ne _ _ _ _ _ hne]; exact hbase)
            · cases j with
              | zero =>
                have hg1 : cache.idx_vec.getD i0 0 = ibuf := by
                  rw [List.getD_eq_getElem?_getD, hidx]; rfl
                have hse : ibuf = s := by rw [← hg1, ← hsj, Nat.add_zero]
                subst hse
                exact Or.inl hslot
              | succ j' =>
                refine Or.inr ⟨j', by simp only [List.length_cons] at hj; omega, ?_⟩
                rw [show i0 + 1 + j' = i0 + (j' + 1) from by omega]
                exact hsj
          case isFalse => cases h

lemma checkSendLoop_no_rebuild (cache : BvarsSubCache) :
    ∀ (ts : List Boundary) (store : Store) (n : Nat) (uf : Bool),
      (∀ j, j < ts.length → n + j < cache.idx_vec.length) →
      (∀ j, j < ts.length → cache.idx_vec.getD (n + j) 0 < cache.buf_vec.length) →
      (∀ j, j < ts.length →
        cache.buf_vec.getD (cache.idx_vec.getD (n + j) 0) 0 < store.length) →
      (∀ j, j < ts.length → cache.idx_vec.getD (n + j) 0 < cache.bnd_info_h.length) →
      (∀ j, j < ts.length →
        (cache.bnd_info_h.getD (cache.idx_vec.getD (n + j) 0) bndInfoDefault).buf
          = chanBufIdAt cache store (cache.idx_vec.getD (n + j) 0)) →
      ∃ uf' store', checkSendLoop cache ts store n false uf
        = some (false, n + ts.length, uf', store') := by
  intro ts
  induction ts with
  | nil =>
    intro store n uf _ _ _ _ _
    exact ⟨uf, store, by simp [checkSendLoop]⟩
  | cons t rest ih =>
    intro store n uf hi hb hs hn hm
    obtain ⟨b, nb, v⟩ := t
    have hlen0 : 0 < ((b, nb, v) :: rest).length := by simp
    have hi0 : n < cache.idx_vec.length := by have := hi 0 hlen0; omega
    set ibuf := cache.idx_vec.getD n 0 with hibuf
    have hidx : cache.idx_vec[n]? = some ibuf := by
      rw [List.getElem?_eq_getElem hi0, hibuf, List.getD_eq_getElem _ _ hi0]
    have hb0 : ibuf < cache.buf_vec.length := by
      have := hb 0 hlen0; rw [Nat.add_zero] at this; exact this
    set bptr := cache.buf_vec.getD ibuf 0 with hbptr
    have hbv : cache.buf_vec[ibuf]? = some bptr := by
      rw [List.getElem?_eq_getElem hb0, hbptr, List.getD_eq_getElem _ _ hb0]
    have hs0 : bptr < store.length := by
      have := hs 0 hlen0; rw [Nat.add_zero] at this; exact this
    set buf := store.getD bptr default with hbufeq
    have hst : store[bptr]? = some buf := by
      rw [List.getElem?_eq_getElem hs0, hbufeq, List.getD_eq_getElem _ _ hs0]
    set buf' := if v.allocated then bufAllocate buf else bufFree buf with hbuf'
    have hn0 : ibuf < cache.bnd_info_h.length := by
      have := hn 0 hlen0; rw [Nat.add_zero] at this; exact this
    have hm0 : (cache.bnd_info_h.getD ibuf bndInfoDefault).buf
        = chanBufIdAt cache store ibuf := by
      have := hm 0 hlen0; rw [Nat.add_zero] at this; exact this
    have hrb : (if ibuf < cache.bnd_info_h.length then
        false || !(UsingSameResource (cache.bnd_info_h.getD ibuf bndInfoDefault).buf
          buf'.bufId)
      else true) = false := by
      rw [if_pos hn0, hm0]
      unfold chanBufIdAt
      rw [← hbptr, ← hbufeq, allocFree_bufId]
      simp [UsingSameResource]
    -- hypotheses transfer to the mutated store
    have hpreserve : ∀ p, ((store.set bptr buf').getD p default).bufId
        = (store.getD p default).bufId :=
      fun p => (set_preserves_state_bufId store bptr buf buf' hst
        (allocFree_state v.allocated buf) (allocFree_bufId v.allocated buf) p).2
    obtain ⟨uf', store', hrec⟩ := ih (store.set bptr buf') (n + 1)
      (uf || !(IsAvailableForWrite buf))
      (fun j hj => by
        have := hi (j + 1) (by simp only [List.length_cons]; omega)
        omega)
      (fun j hj => by
        have := hb (j + 1) (by simp only [List.length_cons]; omega)
        rw [show n + 1 + j = n + (j + 1) from by omega]
        exact this)
      (fun j hj => by
        rw [List.length_set, show n + 1 + j = n + (j + 1) from by omega]
        exact hs (j + 1) (by simp only [List.length_cons]; omega))
      (fun j hj => by
        rw [show n + 1 + j = n + (j + 1) from by omega]
        exact hn (j + 1) (by simp only [List.length_cons]; omega))
      (fun j hj => by
        rw [show n + 1 + j = n + (j + 1) from by omega]
        unfold chanBufIdAt
        rw [hpreserve]
        exact hm (j + 1) (by simp only [List.length_cons]; omega))
    refine ⟨uf', store', ?_⟩
    simp only [checkSendLoop, hidx, hbv, hst]
    rw [← hbuf', hrb]
    rw [show n + ((b, nb, v) :: rest).length = n + 1 + rest.length from by
      simp only [List.length_cons]; omega]
    exact hrec

/-- C3: if a send-side cache is built over a subset, a first validation runs,
and `RebuildBufferCache` then populates the descriptor array from the same
enumeration (through a factory that records each channel's backing resource),
then a second validation over the unchanged mesh, store and allocation states
reports `needs_rebuild = false`. -/
theorem CheckSend_stable_after_rebuild (bound : BoundaryType) (md : MeshData)
    (commMap : List (Key × Nat)) (ko : List (Int × Nat × Key)) (store : Store)
    (creator : Boundary → CommBuffer → BndInfo)
    (cache₀ cache₁ : BvarsSubCache) (rb₁ : Bool) (nbound : Nat) (uf₁ : Bool)
    (store₁ : Store)
    (hko : ko.Perm (keyOrder bound md SendKey))
    (hbuild : BuildBufferCache commMap ko = some cache₀)
    (hptr : ∀ p ∈ cache₀.buf_vec, p < store.length)
    (hcheck : CheckSendBufferCacheForRebuild bound md cache₀ store
      = some (rb₁, nbound, uf₁, store₁))
    (hcreator : ∀ t b, (creator t b).buf = b.bufId)
    (hrebuild : RebuildBufferCache bound md cache₀ store₁ nbound creator
      = some cache₁) :
    ∃ uf₂ store₂, CheckSendBufferCacheForRebuild bound md cache₁ store₁
      = some (false, nbound, uf₂, store₂) := by
  set N := (ForEachBoundary bound md).length with hN
  obtain ⟨hbvN, hivN, hivperm⟩ :=
    buildCache_props bound md SendKey commMap ko cache₀ hko hbuild
  have hidxlt : ∀ m, m < N → cache₀.idx_vec.getD m 0 < N := by
    intro m hm
    have hmem : cache₀.idx_vec.getD m 0 ∈ cache₀.idx_vec := by
      rw [List.getD_eq_getElem _ _ (hivN ▸ hm)]
      exact List.getElem_mem _
    exact List.mem_range.mp (hivperm.mem_iff.mp hmem)
  have hnbound : nbound = N := by
    have := checkSendLoop_nbound cache₀ _ store 0 false false _ hcheck
    simpa using this
  have hstore₁len : store₁.length = store.length :=
    checkSendLoop_store_length cache₀ _ store 0 false false _ hcheck
  unfold RebuildBufferCache at hrebuild
  cases hrloop : rebuildLoop cache₀ creator store₁ (ForEachBoundary bound md)
      (List.replicate nbound bndInfoDefault) 0 with
  | none => rw [hrloop] at hrebuild; cases hrebuild
  | some bnd₁ =>
    rw [hrloop] at hrebuild
    obtain rfl : ({ cache₀ with bnd_info_h := bnd₁ } : BvarsSubCache) = cache₁ := by
      simpa using hrebuild
    have hbnd₁len : bnd₁.length = N := by
      rw [rebuildLoop_length cache₀ creator store₁ _ _ _ _ hrloop,
        List.length_replicate, hnbound]
    have hrecords : ∀ j, j < N →
        (bnd₁.getD (cache₀.idx_vec.getD j 0) bndInfoDefault).buf
          = chanBufIdAt cache₀ store₁ (cache₀.idx_vec.getD j 0) := by
      intro j hj
      exact rebuildLoop_records cache₀ creator store₁ hcreator _ _ _ _ hrloop _
        (Or.inr ⟨j, hN ▸ hj, by rw [Nat.zero_add]⟩)
    obtain ⟨uf₂, store₂, hfin⟩ := checkSendLoop_no_rebuild
      ({ cache₀ with bnd_info_h := bnd₁ }) (ForEachBoundary bound md) store₁ 0 false
      (fun j hj => by simpa [hivN] using hj)
      (fun j hj => by
        simp only [Nat.zero_add]
        have := hidxlt j hj
        omega)
      (fun j hj => by
        simp only [Nat.zero_add]
        rw [hstore₁len]
        apply hptr
        have h1 := hidxlt j hj
        rw [List.getD_eq_getElem _ _ (by omega : cache₀.idx_vec.getD j 0
          < cache₀.buf_vec.length)]
        exact List.getElem_mem _)
      (fun j hj => by
        simp only [Nat.zero_add]
        rw [hbnd₁len]
        exact hidxlt j hj)
      (fun j hj => by
        simp only [Nat.zero_add]
        exact hrecords j hj)
    refine ⟨uf₂, store₂, ?_⟩
    unfold CheckSendBufferCacheForRebuild
    rw [hfin, hnbound]
    simp

/-- Witness for C3: one boundary; build, validate (which reserves the buffer
and reports stale since the descriptor array is still empty), rebuild, then a
second validation reports no rebuild needed. -/
theorem CheckSend_stable_after_rebuild_witness :
    ∃ uf₂ store₂,
      CheckSendBufferCacheForRebuild .any
        ⟨[⟨⟨0, 0, [⟨⟨1, 0, 0⟩, ⟨1, 0, 0, 0, 0, .face⟩⟩]⟩, [⟨"u", true, true⟩]⟩], 0⟩
        ⟨[0], [0], [⟨7, true⟩]⟩ [⟨7, .available, true⟩]
        = some (false, 1, uf₂, store₂) :=
  CheckSend_stable_after_rebuild .any
    ⟨[⟨⟨0, 0, [⟨⟨1, 0, 0⟩, ⟨1, 0, 0, 0, 0, .face⟩⟩]⟩, [⟨"u", true, true⟩]⟩], 0⟩
    [((0, 1, "u", 14), 0)] [(41, 0, (0, 1, "u", 14))] [⟨7, .available, false⟩]
    (fun _ b => ⟨b.bufId, b.active⟩)
    ⟨[0], [0], []⟩ ⟨[0], [0], [⟨7, true⟩]⟩ true 1 false [⟨7, .available, true⟩]
    (by decide) (by decide) (by decide) (by decide) (fun _ _ => rfl) (by decide)

/-- C4 failing input: a receive-side cache built for subset `any` over a mesh
whose `any` enumeration has one boundary but whose `flux-correction-receive`
enumeration is empty.  The cached slot's backing resource (7) differs from the
recorded one (5), so by the claim validation must report `needs_rebuild =
true`; the code instead re-enumerates the hard-coded `flxcor_recv` subset
(bvals_utils.hpp:216), visits nothing, and returns `(false, 0)`. -/
theorem CheckReceive_wrong_subset_failing_input :
    (ForEachBoundary .any
      ⟨[⟨⟨0, 0, [⟨⟨1, 0, 0⟩, ⟨1, 0, 0, 0, 0, .face⟩⟩]⟩, [⟨"u", true, true⟩]⟩], 0⟩).length
        = 1 ∧
    ForEachBoundary .flxcor_recv
      ⟨[⟨⟨0, 0, [⟨⟨1, 0, 0⟩, ⟨1, 0, 0, 0, 0, .face⟩⟩]⟩, [⟨"u", true, true⟩]⟩], 0⟩ = [] ∧
    ((⟨[0], [0], [⟨5, true⟩]⟩ : BvarsSubCache).bnd_info_h.getD
        ((⟨[0], [0], [⟨5, true⟩]⟩ : BvarsSubCache).idx_vec.getD 0 0)
        bndInfoDefault).buf = 5 ∧
    chanBufIdAt ⟨[0], [0], [⟨5, true⟩]⟩ [⟨7, .received, true⟩]
      ((⟨[0], [0], [⟨5, true⟩]⟩ : BvarsSubCache).idx_vec.getD 0 0) = 7 ∧
    CheckReceiveBufferCacheForRebuild .any
      ⟨[⟨⟨0, 0, [⟨⟨1, 0, 0⟩, ⟨1, 0, 0, 0, 0, .face⟩⟩]⟩, [⟨"u", true, true⟩]⟩], 0⟩
      ⟨[0], [0], [⟨5, true⟩]⟩ [⟨7, .received, true⟩] = some (false, 0) := by
  refine ⟨by decide, by decide, by decide, by decide, by decide⟩

/-! ## Face-centered geometric pack/unpack (bvals_fc.cpp)

Fields are total functions `f k j i` (the `(k,j,i)` indexing of
`x1f(k,j,i)`); the value type is a parameter, since pack/unpack move values
without arithmetic.  `BufferUtility::PackData` / `UnpackData` are external to
src and modelled from the spec (§4.5): a triple loop, `k` outermost and `i`
innermost, reading/writing `buf[p++]`. -/

/-- A face-field component, applied as `f k j i`. -/
abbrev Field (α : Type) := Int → Int → Int → α

/-- An inclusive index box `[si,ei] × [sj,ej] × [sk,ek]`. -/
structure Box where
  si : Int
  ei : Int
  sj : Int
  ej : Int
  sk : Int
  ek : Int
deriving DecidableEq, Repr

/-- The inclusive integer range `[s, e]` as a list. -/
def rangeInt (s e : Int) : List Int :=
  (List.range (e + 1 - s).toNat).map fun (n : Nat) => s + (n : Int)

/-- The `(k, j, i)` triples of a box in pack order: `k` outermost, `i`
innermost — the loop nest of `PackData` / `UnpackData`. -/
def boxIndices (b : Box) : List (Int × Int × Int) :=
  (rangeInt b.sk b.ek) ×ˢ ((rangeInt b.sj b.ej) ×ˢ (rangeInt b.si b.ei))

lemma length_rangeInt (s e : Int) : (rangeInt s e).length = (e + 1 - s).toNat := by
  unfold rangeInt
  rw [List.length_map, List.length_range]

lemma nodup_rangeInt (s e : Int) : (rangeInt s e).Nodup := by
  unfold rangeInt
  exact List.Nodup.map (fun a b h => by omega) (List.nodup_range _)

lemma length_boxIndices (b : Box) :
    (boxIndices b).length =
      (b.ek + 1 - b.sk).toNat * ((b.ej + 1 - b.sj).toNat * (b.ei + 1 - b.si).toNat) := by
  unfold boxIndices
  rw [List.length_product, List.length_product, length_rangeInt, length_rangeInt,
    length_rangeInt]


lemma nodup_boxIndices (b : Box) : (boxIndices b).Nodup :=
  List.Nodup.product (nodup_rangeInt _ _)
    (List.Nodup.product (nodup_rangeInt _ _) (nodup_rangeInt _ _))

/-- Equal per-axis extents give equally long index lists. -/
lemma length_boxIndices_congr (a b : Box)
    (hk : (a.ek + 1 - a.sk).toNat = (b.ek + 1 - b.sk).toNat)
    (hj : (a.ej + 1 - a.sj).toNat = (b.ej + 1 - b.sj).toNat)
    (hi : (a.ei + 1 - a.si).toNat = (b.ei + 1 - b.si).toNat) :
    (boxIndices a).length = (boxIndices b).length := by
  rw [length_boxIndices, length_boxIndices, hk, hj, hi]

/-- Modelled from the spec (§4.5, `BufferUtility::PackData`): append the box's
values to the buffer in loop order; the write position `p` advances to the
buffer's end. -/
def PackData (f : Field α) (b : Box) (buf : List α) : List α :=
  buf ++ (boxIndices b).map fun q => f q.1 q.2.1 q.2.2

/-- Point update of a field. -/
def updF {α : Type} (f : Field α) (q : Int × Int × Int) (x : α) : Field α :=
  fun k j i => if (k, j, i) = q then x else f k j i

/-- Field applied to a position triple. -/
def appF {α : Type} (f : Field α) (q : Int × Int × Int) : α := f q.1 q.2.1 q.2.2

lemma appF_updF_self {α : Type} (f : Field α) (q : Int × Int × Int) (x : α) :
    appF (updF f q x) q = x := by
  unfold appF updF
  simp

lemma appF_updF_ne {α : Type} (f : Field α) (q q' : Int × Int × Int) (x : α)
    (h : q' ≠ q) : appF (updF f q x) q' = appF f q' := by
  unfold appF updF
  have hne : ((q'.1, q'.2.1, q'.2.2) : Int × Int × Int) ≠ q := fun he => h he
  rw [if_neg hne]

/-- Write `buf[p], buf[p+1], …` to the listed positions in order: the loop of
`BufferUtility::UnpackData` (modelled from the spec §4.5) applied to an
arbitrary position list. -/
def writeList [Inhabited α] (buf : List α) (f : Field α)
    (ps : List (Int × Int × Int)) (p : Nat) : Field α × Nat :=
  ps.foldl (fun fp q => (updF fp.1 q (buf.getD fp.2 default), fp.2 + 1)) (f, p)

/-- `BufferUtility::UnpackData` over a box. -/
def UnpackData [Inhabited α] (buf : List α) (f : Field α) (b : Box) (p : Nat) :
    Field α × Nat :=
  writeList buf f (boxIndices b) p

lemma writeList_cons [Inhabited α] (buf : List α) (f : Field α)
    (q : Int × Int × Int) (ps : List (Int × Int × Int)) (p : Nat) :
    writeList buf f (q :: ps) p
      = writeList buf (updF f q (buf.getD p default)) ps (p + 1) := rfl

lemma writeList_snd [Inhabited α] (buf : List α) :
    ∀ (ps : List (Int × Int × Int)) (f : Field α) (p : Nat),
      (writeList buf f ps p).2 = p + ps.length := by
  intro ps
  induction ps with
  | nil => intro f p; simp [writeList]
  | cons q rest ih =>
    intro f p
    rw [writeList_cons, ih]
    simp only [List.length_cons]
    omega

lemma writeList_preserve [Inhabited α] (buf : List α) :
    ∀ (ps : List (Int × Int × Int)) (f : Field α) (p : Nat) (q : Int × Int × Int),
      q ∉ ps → appF (writeList buf f ps p).1 q = appF f q := by
  intro ps
  induction ps with
  | nil => intro f p q _; rfl
  | cons r rest ih =>
    intro f p q hq
    rw [writeList_cons, ih _ _ _ (fun h => hq (List.mem_cons_of_mem r h))]
    exact appF_updF_ne _ _ _ _ (fun h => hq (h ▸ List.mem_cons_self r rest))

lemma writeList_get [Inhabited α] (buf : List α) :
    ∀ (ps : List (Int × Int × Int)) (f : Field α) (p : Nat), ps.Nodup →
      ∀ n (hn : n < ps.length),
        appF (writeList buf f ps p).1 (ps.get ⟨n, hn⟩) = buf.getD (p + n) default := by
  intro ps
  induction ps with
  | nil => intro f p _ n hn; exact absurd hn (by simp)
  | cons r rest ih =>
    intro f p hnd n hn
    rw [List.nodup_cons] at hnd
    cases n with
    | zero =>
      show appF (writeList buf f (r :: rest) p).1 r = buf.getD (p + 0) default
      rw [writeList_cons, writeList_preserve buf rest _ _ _ hnd.1, appF_updF_self,
        Nat.add_zero]
    | succ n' =>
      show appF (writeList buf f (r :: rest) p).1 (rest.get ⟨n', _⟩)
        = buf.getD (p + (n' + 1)) default
      rw [writeList_cons, ih _ _ hnd.2 n' (by simpa using Nat.lt_of_succ_lt_succ hn),
        show p + 1 + n' = p + (n' + 1) from by omega]

/-- Reading the unpacked box back, in order, returns exactly the buffer
segment `[p, p + L)`. -/
lemma unpack_reads [Inhabited α] (buf : List α) (f : Field α) (b : Box) (p : Nat) :
    (boxIndices b).map (fun q => appF (UnpackData buf f b p).1 q)
      = (List.range (boxIndices b).length).map fun n => buf.getD (p + n) default := by
  apply List.ext_getElem
  · simp
  · intro n h1 h2
    simp only [List.getElem_map, List.getElem_range]
    have := writeList_get buf (boxIndices b) f p (nodup_boxIndices b) n
      (by simpa using h1)
    rw [← this]
    rfl

/-- A map over `range` of `getD` reads of an appended list returns the middle
segment. -/
lemma getD_segment {α : Type} [Inhabited α] (pre mid post : List α) :
    (List.range mid.length).map (fun n => (pre ++ mid ++ post).getD (pre.length + n) default)
      = mid := by
  apply List.ext_getElem
  · simp
  · intro n h1 h2
    simp only [List.getElem_map, List.getElem_range]
    rw [List.getD_eq_getElem?_getD, List.append_assoc,
      List.getElem?_append_right (by omega), List.getElem?_append_left (by omega)]
    simp only [Nat.add_sub_cancel_left]
    rw [List.getElem?_eq_getElem h2]
    rfl

/-- Interior index bounds of `pmb->cellbounds` (`is,ie,js,je,ks,ke`). -/
structure IndexShape where
  is : Int
  ie : Int
  js : Int
  je : Int
  ks : Int
  ke : Int
deriving DecidableEq, Repr

/-- The quantities the same-level pack/unpack routines read: index bounds,
`block_size.nx2` / `block_size.nx3`, `NGHOST`, and the mesh's `multilevel`
flag.  For `LoadBoundaryBufferSameLevel`, `cb` is the block's
`pmb->cellbounds` (bound at bvals_fc.cpp:185); for `SetBoundarySameLevel`,
`cb` stands for whatever the routine's local `cellbounds` reference yields —
bvals_fc.cpp:437 initializes that reference with itself, so the source never
binds it to `pmb->cellbounds` and the embedding keeps it an arbitrary
parameter. -/
structure FcParams where
  cb : IndexShape
  nx2 : Int
  nx3 : Int
  NGHOST : Int
  multilevel : Bool
deriving DecidableEq, Repr

/-- bx1 `si/ei` of `LoadBoundaryBufferSameLevel` (bvals_fc.cpp:187-189 and the
multilevel edge/corner widening 197-200, which touches this axis only). -/
def loadB1i (P : FcParams) (ox1 : Int) (ty : NeighborConnect) : Int × Int :=
  let si := if ox1 = 0 then P.cb.is
    else if ox1 > 0 then P.cb.ie - P.NGHOST + 1 else P.cb.is + 1
  let ei := if ox1 = 0 then P.cb.ie + 1
    else if ox1 > 0 then P.cb.ie else P.cb.is + P.NGHOST
  if P.multilevel ∧ ty ≠ NeighborConnect.face then
    if ox1 > 0 then (si, ei + 1) else if ox1 < 0 then (si - 1, ei) else (si, ei)
  else (si, ei)

/-- bx1 `sj/ej` (bvals_fc.cpp:190-192). -/
def loadB1j (P : FcParams) (ox2 : Int) : Int × Int :=
  (if ox2 = 0 then P.cb.js else if ox2 > 0 then P.cb.je - P.NGHOST + 1 else P.cb.js,
   if ox2 = 0 then P.cb.je else if ox2 > 0 then P.cb.je else P.cb.js + P.NGHOST - 1)

/-- bx1 `sk/ek` (bvals_fc.cpp:193-195); carried unchanged into the bx2
section. -/
def loadB1k (P : FcParams) (ox3 : Int) : Int × Int :=
  (if ox3 = 0 then P.cb.ks else if ox3 > 0 then P.cb.ke - P.NGHOST + 1 else P.cb.ks,
   if ox3 = 0 then P.cb.ke else if ox3 > 0 then P.cb.ke else P.cb.ks + P.NGHOST - 1)

/-- bx2 `si/ei` (bvals_fc.cpp:204-206); carried unchanged into the bx3
section. -/
def loadB2i (P : FcParams) (ox1 : Int) : Int × Int :=
  (if ox1 = 0 then P.cb.is else if ox1 > 0 then P.cb.ie - P.NGHOST + 1 else P.cb.is,
   if ox1 = 0 then P.cb.ie else if ox1 > 0 then P.cb.ie else P.cb.is + P.NGHOST - 1)

/-- bx2 `sj/ej` (bvals_fc.cpp:207-214), `nx2 == 1` first, then the multilevel
widening. -/
def loadB2j (P : FcParams) (ox2 : Int) (ty : NeighborConnect) : Int × Int :=
  let sj := if P.nx2 = 1 then P.cb.js
    else if ox2 = 0 then P.cb.js
    else if ox2 > 0 then P.cb.je - P.NGHOST + 1 else P.cb.js + 1
  let ej := if P.nx2 = 1 then P.cb.je
    else if ox2 = 0 then P.cb.je + 1
    else if ox2 > 0 then P.cb.je else P.cb.js + P.NGHOST
  if P.multilevel ∧ ty ≠ NeighborConnect.face then
    if ox2 > 0 then (sj, ej + 1) else if ox2 < 0 then (sj - 1, ej) else (sj, ej)
  else (sj, ej)

/-- bx3 `sj/ej` (bvals_fc.cpp:218-220). -/
def loadB3j (P : FcParams) (ox2 : Int) : Int × Int :=
  (if ox2 = 0 then P.cb.js else if ox2 > 0 then P.cb.je - P.NGHOST + 1 else P.cb.js,
   if ox2 = 0 then P.cb.je else if ox2 > 0 then P.cb.je else P.cb.js + P.NGHOST - 1)

/-- bx3 `sk/ek` (bvals_fc.cpp:221-228). -/
def loadB3k (P : FcParams) (ox3 : Int) (ty : NeighborConnect) : Int × Int :=
  let sk := if P.nx3 = 1 then P.cb.ks
    else if ox3 = 0 then P.cb.ks
    else if ox3 > 0 then P.cb.ke - P.NGHOST + 1 else P.cb.ks + 1
  let ek := if P.nx3 = 1 then P.cb.ke
    else if ox3 = 0 then P.cb.ke + 1
    else if ox3 > 0 then P.cb.ke else P.cb.ks + P.NGHOST
  if P.multilevel ∧ ty ≠ NeighborConnect.face then
    if ox3 > 0 then (sk, ek + 1) else if ox3 < 0 then (sk - 1, ek) else (sk, ek)
  else (sk, ek)

/-- The three index boxes of `LoadBoundaryBufferSameLevel`
(bvals_fc.cpp:179-232); box 2 keeps box 1's `sk/ek`, box 3 keeps box 2's
`si/ei`, exactly as the mutable locals do. -/
def loadSameLevelBoxes (P : FcParams) (ni : NeighborIndexes) : Box × Box × Box :=
  let i1 := loadB1i P ni.ox1 ni.type
  let j1 := loadB1j P ni.ox2
  let k1 := loadB1k P ni.ox3
  let i2 := loadB2i P ni.ox1
  let j2 := loadB2j P ni.ox2 ni.type
  let j3 := loadB3j P ni.ox2
  let k3 := loadB3k P ni.ox3 ni.type
  (⟨i1.1, i1.2, j1.1, j1.2, k1.1, k1.2⟩,
   ⟨i2.1, i2.2, j2.1, j2.2, k1.1, k1.2⟩,
   ⟨i2.1, i2.2, j3.1, j3.2, k3.1, k3.2⟩)

/-- `LoadBoundaryBufferSameLevel` (bvals_fc.cpp:179-232): pack the three
face-field components over their boxes; the returned buffer's length is the
returned `p`. -/
def LoadBoundaryBufferSameLevel [Inhabited α] (P : FcParams)
    (x1f x2f x3f : Field α) (ni : NeighborIndexes) : List α :=
  let bs := loadSameLevelBoxes P ni
  PackData x3f bs.2.2 (PackData x2f bs.2.1 (PackData x1f bs.1 []))

/-- bx1 `si/ei` of `SetBoundarySameLevel` (bvals_fc.cpp:440-453). -/
def setB1i (P : FcParams) (ox1 : Int) (ty : NeighborConnect) : Int × Int :=
  let si := if ox1 = 0 then P.cb.is
    else if ox1 > 0 then P.cb.ie + 2 else P.cb.is - P.NGHOST
  let ei := if ox1 = 0 then P.cb.ie + 1
    else if ox1 > 0 then P.cb.ie + P.NGHOST + 1 else P.cb.is - 1
  if P.multilevel ∧ ty ≠ NeighborConnect.face then
    if ox1 > 0 then (si - 1, ei) else if ox1 < 0 then (si, ei + 1) else (si, ei)
  else (si, ei)

/-- bx1 `sj/ej` (bvals_fc.cpp:443-445). -/
def setB1j (P : FcParams) (ox2 : Int) : Int × Int :=
  (if ox2 = 0 then P.cb.js else if ox2 > 0 then P.cb.je + 1 else P.cb.js - P.NGHOST,
   if ox2 = 0 then P.cb.je else if ox2 > 0 then P.cb.je + P.NGHOST else P.cb.js - 1)

/-- bx1 `sk/ek` (bvals_fc.cpp:446-448); carried into the bx2 section. -/
def setB1k (P : FcParams) (ox3 : Int) : Int × Int :=
  (if ox3 = 0 then P.cb.ks else if ox3 > 0 then P.cb.ke + 1 else P.cb.ks - P.NGHOST,
   if ox3 = 0 then P.cb.ke else if ox3 > 0 then P.cb.ke + P.NGHOST else P.cb.ks - 1)

/-- bx2 `si/ei` (bvals_fc.cpp:459-461); carried into the bx3 section. -/
def setB2i (P : FcParams) (ox1 : Int) : Int × Int :=
  (if ox1 = 0 then P.cb.is else if ox1 > 0 then P.cb.ie + 1 else P.cb.is - P.NGHOST,
   if ox1 = 0 then P.cb.ie else if ox1 > 0 then P.cb.ie + P.NGHOST else P.cb.is - 1)

/-- bx2 `sj/ej` (bvals_fc.cpp:462-470). -/
def setB2j (P : FcParams) (ox2 : Int) (ty : NeighborConnect) : Int × Int :=
  let sj := if P.nx2 = 1 then P.cb.js
    else if ox2 = 0 then P.cb.js
    else if ox2 > 0 then P.cb.je + 2 else P.cb.js - P.NGHOST
  let ej := if P.nx2 = 1 then P.cb.je
    else if ox2 = 0 then P.cb.je + 1
    else if ox2 > 0 then P.cb.je + P.NGHOST + 1 else P.cb.js - 1
  if P.multilevel ∧ ty ≠ NeighborConnect.face then
    if ox2 > 0 then (sj - 1, ej) else if ox2 < 0 then (sj, ej + 1) else (sj, ej)
  else (sj, ej)

/-- bx3 `sj/ej` (bvals_fc.cpp:481-483). -/
def setB3j (P : FcParams) (ox2 : Int) : Int × Int :=
  (if ox2 = 0 then P.cb.js else if ox2 > 0 then P.cb.je + 1 else P.cb.js - P.NGHOST,
   if ox2 = 0 then P.cb.je else if ox2 > 0 then P.cb.je + P.NGHOST else P.cb.js - 1)

/-- bx3 `sk/ek` (bvals_fc.cpp:484-492). -/
def setB3k (P : FcParams) (ox3 : Int) (ty : NeighborConnect) : Int × Int :=
  let sk := if P.nx3 = 1 then P.cb.ks
    else if ox3 = 0 then P.cb.ks
    else if ox3 > 0 then P.cb.ke + 2 else P.cb.ks - P.NGHOST
  let ek := if P.nx3 = 1 then P.cb.ke
    else if ox3 = 0 then P.cb.ke + 1
    else if ox3 > 0 then P.cb.ke + P.NGHOST + 1 else P.cb.ks - 1
  if P.multilevel ∧ ty ≠ NeighborConnect.face then
    if ox3 > 0 then (sk - 1, ek) else if ox3 < 0 then (sk, ek + 1) else (sk, ek)
  else (sk, ek)

/-- The three index boxes of `SetBoundarySameLevel` (bvals_fc.cpp:431-505),
with the same carry-over of `sk/ek` into box 2 and `si/ei` into box 3.  The
bounds `P.cb` are the ones read through the routine's self-initialized local
`cellbounds` reference (line 437): an arbitrary `IndexShape`, not tied by the
source to the block's `cellbounds`. -/
def setSameLevelBoxes (P : FcParams) (ni : NeighborIndexes) : Box × Box × Box :=
  let i1 := setB1i P ni.ox1 ni.type
  let j1 := setB1j P ni.ox2
  let k1 := setB1k P ni.ox3
  let i2 := setB2i P ni.ox1
  let j2 := setB2j P ni.ox2 ni.type
  let j3 := setB3j P ni.ox2
  let k3 := setB3k P ni.ox3 ni.type
  (⟨i1.1, i1.2, j1.1, j1.2, k1.1, k1.2⟩,
   ⟨i2.1, i2.2, j2.1, j2.2, k1.1, k1.2⟩,
   ⟨i2.1, i2.2, j3.1, j3.2, k3.1, k3.2⟩)

/-- The 1-D replication loop after the `x2f` unpack (bvals_fc.cpp:474-478):
copy plane `j = sj` onto plane `j = sj + 1` for the unpacked `i` range, at the
current `sk`. -/
def replicateX2 {α : Type} (g : Field α) (b2 : Box) : Field α :=
  (rangeInt b2.si b2.ei).foldl
    (fun f i => updF f (b2.sk, b2.sj + 1, i) (f b2.sk b2.sj i)) g

/-- The 1-D/2-D replication loop after the `x3f` unpack
(bvals_fc.cpp:496-502): copy plane `k = sk` onto plane `k = sk + 1` over the
unpacked `(j, i)` range. -/
def replicateX3 {α : Type} (g : Field α) (b3 : Box) : Field α :=
  ((rangeInt b3.sj b3.ej) ×ˢ (rangeInt b3.si b3.ei)).foldl
    (fun f q => updF f (b3.sk + 1, q.1, q.2) (f b3.sk q.1 q.2)) g

/-- `SetBoundarySameLevel` (bvals_fc.cpp:431-505): unpack the three components
in sequence, replicating degenerate axes.  Line 437 initializes the routine's
local `cellbounds` reference with itself, so the bounds it reads are
indeterminate (`pmb->cellbounds` is never read here, unlike the sibling
routines at lines 185, 333, 616); the embedding takes those bounds as the
`cb` field of its parameter record, with no binding to the block's
`cellbounds` implied. -/
def SetBoundarySameLevel [Inhabited α] (P : FcParams) (buf : List α)
    (x1f x2f x3f : Field α) (ni : NeighborIndexes) :
    Field α × Field α × Field α :=
  let bs := setSameLevelBoxes P ni
  let u1 := UnpackData buf x1f bs.1 0
  let u2 := UnpackData buf x2f bs.2.1 u1.2
  let g2 := if P.nx2 = 1 then replicateX2 u2.1 bs.2.1 else u2.1
  let u3 := UnpackData buf x3f bs.2.2 u2.2
  let g3 := if P.nx3 = 1 then replicateX3 u3.1 bs.2.2 else u3.1
  (u1.1, g2, g3)

/-- Inclusive extent of an `(s, e)` axis pair. -/
def ext2 (p : Int × Int) : Nat := (p.2 + 1 - p.1).toNat

lemma ext_B1i (P : FcParams) (o : Int) (ty : NeighborConnect)
    (h : o ∈ ([-1, 0, 1] : List Int)) :
    ext2 (setB1i P (-o) ty) = ext2 (loadB1i P o ty) := by
  have h' : o = -1 ∨ o = 0 ∨ o = 1 := by simpa using h
  rcases h' with rfl | rfl | rfl <;>
    (simp only [setB1i, loadB1i, ext2]; norm_num;
      try (split_ifs <;> ((try dsimp only) <;> omega)))

lemma ext_B1j (P : FcParams) (o : Int) (h : o ∈ ([-1, 0, 1] : List Int)) :
    ext2 (setB1j P (-o)) = ext2 (loadB1j P o) := by
  have h' : o = -1 ∨ o = 0 ∨ o = 1 := by simpa using h
  rcases h' with rfl | rfl | rfl <;>
    (simp only [setB1j, loadB1j, ext2]; norm_num;
      try (split_ifs <;> ((try dsimp only) <;> omega)))

lemma ext_B1k (P : FcParams) (o : Int) (h : o ∈ ([-1, 0, 1] : List Int)) :
    ext2 (setB1k P (-o)) = ext2 (loadB1k P o) := by
  have h' : o = -1 ∨ o = 0 ∨ o = 1 := by simpa using h
  rcases h' with rfl | rfl | rfl <;>
    (simp only [setB1k, loadB1k, ext2]; norm_num;
      try (split_ifs <;> ((try dsimp only) <;> omega)))

lemma ext_B2i (P : FcParams) (o : Int) (h : o ∈ ([-1, 0, 1] : List Int)) :
    ext2 (setB2i P (-o)) = ext2 (loadB2i P o) := by
  have h' : o = -1 ∨ o = 0 ∨ o = 1 := by simpa using h
  rcases h' with rfl | rfl | rfl <;>
    (simp only [setB2i, loadB2i, ext2]; norm_num;
      try (split_ifs <;> ((try dsimp only) <;> omega)))

lemma ext_B2j (P : FcParams) (o : Int) (ty : NeighborConnect)
    (h : o ∈ ([-1, 0, 1] : List Int)) :
    ext2 (setB2j P (-o) ty) = ext2 (loadB2j P o ty) := by
  have h' : o = -1 ∨ o = 0 ∨ o = 1 := by simpa using h
  rcases h' with rfl | rfl | rfl <;>
    (simp only [setB2j, loadB2j, ext2]; norm_num;
      try (split_ifs <;> ((try dsimp only) <;> omega)))

lemma ext_B3j (P : FcParams) (o : Int) (h : o ∈ ([-1, 0, 1] : List Int)) :
    ext2 (setB3j P (-o)) = ext2 (loadB3j P o) := by
  have h' : o = -1 ∨ o = 0 ∨ o = 1 := by simpa using h
  rcases h' with rfl | rfl | rfl <;>
    (simp only [setB3j, loadB3j, ext2]; norm_num;
      try (split_ifs <;> ((try dsimp only) <;> omega)))

lemma ext_B3k (P : FcParams) (o : Int) (ty : NeighborConnect)
    (h : o ∈ ([-1, 0, 1] : List Int)) :
    ext2 (setB3k P (-o) ty) = ext2 (loadB3k P o ty) := by
  have h' : o = -1 ∨ o = 0 ∨ o = 1 := by simpa using h
  rcases h' with rfl | rfl | rfl <;>
    (simp only [setB3k, loadB3k, ext2]; norm_num;
      try (split_ifs <;> ((try dsimp only) <;> omega)))

/-- Componentwise count agreement between a sender's pack boxes at offsets
`(ox1,ox2,ox3)` and the mirrored receiver's unpack boxes. -/
lemma setSameLevel_lengths (P : FcParams) (ni ni' : NeighborIndexes)
    (h1 : ni.ox1 ∈ ([-1, 0, 1] : List Int)) (h2 : ni.ox2 ∈ ([-1, 0, 1] : List Int))
    (h3 : ni.ox3 ∈ ([-1, 0, 1] : List Int))
    (hm1 : ni'.ox1 = -ni.ox1) (hm2 : ni'.ox2 = -ni.ox2) (hm3 : ni'.ox3 = -ni.ox3)
    (hty : ni'.type = ni.type) :
    (boxIndices (setSameLevelBoxes P ni').1).length
        = (boxIndices (loadSameLevelBoxes P ni).1).length ∧
    (boxIndices (setSameLevelBoxes P ni').2.1).length
        = (boxIndices (loadSameLevelBoxes P ni).2.1).length ∧
    (boxIndices (setSameLevelBoxes P ni').2.2).length
        = (boxIndices (loadSameLevelBoxes P ni).2.2).length := by
  refine ⟨length_boxIndices_congr _ _ ?_ ?_ ?_, length_boxIndices_congr _ _ ?_ ?_ ?_,
    length_boxIndices_congr _ _ ?_ ?_ ?_⟩
  · show ext2 (setB1k P ni'.ox3) = ext2 (loadB1k P ni.ox3)
    rw [hm3]; exact ext_B1k P ni.ox3 h3
  · show ext2 (setB1j P ni'.ox2) = ext2 (loadB1j P ni.ox2)
    rw [hm2]; exact ext_B1j P ni.ox2 h2
  · show ext2 (setB1i P ni'.ox1 ni'.type) = ext2 (loadB1i P ni.ox1 ni.type)
    rw [hm1, hty]; exact ext_B1i P ni.ox1 ni.type h1
  · show ext2 (setB1k P ni'.ox3) = ext2 (loadB1k P ni.ox3)
    rw [hm3]; exact ext_B1k P ni.ox3 h3
  · show ext2 (setB2j P ni'.ox2 ni'.type) = ext2 (loadB2j P ni.ox2 ni.type)
    rw [hm2, hty]; exact ext_B2j P ni.ox2 ni.type h2
  · show ext2 (setB2i P ni'.ox1) = ext2 (loadB2i P ni.ox1)
    rw [hm1]; exact ext_B2i P ni.ox1 h1
  · show ext2 (setB3k P ni'.ox3 ni'.type) = ext2 (loadB3k P ni.ox3 ni.type)
    rw [hm3, hty]; exact ext_B3k P ni.ox3 ni.type h3
  · show ext2 (setB3j P ni'.ox2) = ext2 (loadB3j P ni.ox2)
    rw [hm2]; exact ext_B3j P ni.ox2 h2
  · show ext2 (setB2i P ni'.ox1) = ext2 (loadB2i P ni.ox1)
    rw [hm1]; exact ext_B2i P ni.ox1 h1

lemma repX2_untouched {α : Type} (b2 : Box) :
    ∀ (l : List Int) (g : Field α) (k j i : Int),
      (∀ i' ∈ l, (k, j, i) ≠ ((b2.sk, b2.sj + 1, i') : Int × Int × Int)) →
      (l.foldl (fun f i => updF f (b2.sk, b2.sj + 1, i) (f b2.sk b2.sj i)) g) k j i
        = g k j i := by
  intro l
  induction l with
  | nil => intro g k j i _; rfl
  | cons x xs ih =>
    intro g k j i hne
    simp only [List.foldl_cons]
    rw [ih _ _ _ _ (fun i' hi' => hne i' (List.mem_cons_of_mem x hi'))]
    unfold updF
    exact if_neg (hne x (List.mem_cons_self x xs))

lemma repX2_get {α : Type} (b2 : Box) :
    ∀ (l : List Int) (g : Field α) (i : Int), l.Nodup → i ∈ l →
      (l.foldl (fun f i => updF f (b2.sk, b2.sj + 1, i) (f b2.sk b2.sj i)) g)
          b2.sk (b2.sj + 1) i
        = g b2.sk b2.sj i := by
  intro l
  induction l with
  | nil => intro g i _ hi; cases hi
  | cons x xs ih =>
    intro g i hnd hi
    rw [List.nodup_cons] at hnd
    simp only [List.foldl_cons]
    rcases List.mem_cons.mp hi with rfl | hixs
    · rw [repX2_untouched b2 xs _ _ _ _ ?_]
      · unfold updF
        exact if_pos rfl
      · intro i' hi' he
        have h3 : i = i' := congrArg (fun q => q.2.2) he
        exact hnd.1 (h3 ▸ hi')
    · rw [ih _ _ hnd.2 hixs]
      unfold updF
      refine if_neg fun he => ?_
      have h2 : b2.sj = b2.sj + 1 := congrArg (fun q => q.2.1) he
      omega

/-- After the `x2f` replication loop the two `j`-planes `sj` and `sj + 1`
agree over the loop's `i` range. -/
lemma replicateX2_planes {α : Type} (g : Field α) (b2 : Box) :
    ∀ i ∈ rangeInt b2.si b2.ei,
      replicateX2 g b2 b2.sk (b2.sj + 1) i = replicateX2 g b2 b2.sk b2.sj i := by
  intro i hi
  unfold replicateX2
  rw [repX2_get b2 _ _ _ (nodup_rangeInt _ _) hi,
    repX2_untouched b2 _ _ _ _ _ (fun i' _ he => by
      have h2 : b2.sj = b2.sj + 1 := congrArg (fun q => q.2.1) he
      omega)]

lemma repX3_untouched {α : Type} (b3 : Box) :
    ∀ (l : List (Int × Int)) (g : Field α) (k j i : Int),
      (∀ q' ∈ l, (k, j, i) ≠ ((b3.sk + 1, q'.1, q'.2) : Int × Int × Int)) →
      (l.foldl (fun f q => updF f (b3.sk + 1, q.1, q.2) (f b3.sk q.1 q.2)) g) k j i
        = g k j i := by
  intro l
  induction l with
  | nil => intro g k j i _; rfl
  | cons x xs ih =>
    intro g k j i hne
    simp only [List.foldl_cons]
    rw [ih _ _ _ _ (fun q' hq' => hne q' (List.mem_cons_of_mem x hq'))]
    unfold updF
    exact if_neg (hne x (List.mem_cons_self x xs))

lemma repX3_get {α : Type} (b3 : Box) :
    ∀ (l : List (Int × Int)) (g : Field α) (q : Int × Int), l.Nodup → q ∈ l →
      (l.foldl (fun f q => updF f (b3.sk + 1, q.1, q.2) (f b3.sk q.1 q.2)) g)
          (b3.sk + 1) q.1 q.2
        = g b3.sk q.1 q.2 := by
  intro l
  induction l with
  | nil => intro g q _ hq; cases hq
  | cons x xs ih =>
    intro g q hnd hq
    rw [List.nodup_cons] at hnd
    simp only [List.foldl_cons]
    rcases List.mem_cons.mp hq with rfl | hqxs
    · rw [repX3_untouched b3 xs _ _ _ _ ?_]
      · unfold updF
        exact if_pos rfl
      · intro q' hq' he
        have h2 : q.1 = q'.1 := congrArg (fun r => r.2.1) he
        have h3 : q.2 = q'.2 := congrArg (fun r => r.2.2) he
        exact hnd.1 ((Prod.ext h2 h3) ▸ hq')
    · rw [ih _ _ hnd.2 hqxs]
      unfold updF
      refine if_neg fun he => ?_
      have h1 : b3.sk = b3.sk + 1 := congrArg (fun r => r.1) he
      omega

/-- After the `x3f` replication loop the two `k`-planes `sk` and `sk + 1`
agree over the loop's `(j, i)` range. -/
lemma replicateX3_planes {α : Type} (g : Field α) (b3 : Box) :
    ∀ j ∈ rangeInt b3.sj b3.ej, ∀ i ∈ rangeInt b3.si b3.ei,
      replicateX3 g b3 (b3.sk + 1) j i = replicateX3 g b3 b3.sk j i := by
  intro j hj i hi
  unfold replicateX3
  have hmem : ((j, i) : Int × Int) ∈ (rangeInt b3.sj b3.ej) ×ˢ (rangeInt b3.si b3.ei) :=
    List.pair_mem_product.mpr ⟨hj, hi⟩
  have hnd : ((rangeInt b3.sj b3.ej) ×ˢ (rangeInt b3.si b3.ei)).Nodup :=
    List.Nodup.product (nodup_rangeInt _ _) (nodup_rangeInt _ _)
  rw [repX3_get b3 _ _ ((j, i) : Int × Int) hnd hmem,
    repX3_untouched b3 _ _ _ _ _ (fun q' _ he => by
      have h1 : b3.sk = b3.sk + 1 := congrArg (fun r => r.1) he
      omega)]

/-- C9: after a same-level unpack on a mesh with a degenerate axis, the two
planes of the corresponding face-field component along that axis hold
identical data over the unpacked index range: with `nx2 == 1`, `x2f` at the
`j`-planes `sj` and `sj+1` agrees for all unpacked `i`; with `nx3 == 1`,
`x3f` at the `k`-planes `sk` and `sk+1` agrees for all unpacked `(i, j)`. -/
theorem SetBoundarySameLevel_degenerate_replication {α : Type} [Inhabited α]
    (P : FcParams) (buf : List α) (x1f x2f x3f : Field α) (ni : NeighborIndexes) :
    (P.nx2 = 1 →
      ∀ i ∈ rangeInt (setSameLevelBoxes P ni).2.1.si (setSameLevelBoxes P ni).2.1.ei,
        (SetBoundarySameLevel P buf x1f x2f x3f ni).2.1
            (setSameLevelBoxes P ni).2.1.sk ((setSameLevelBoxes P ni).2.1.sj + 1) i
          = (SetBoundarySameLevel P buf x1f x2f x3f ni).2.1
            (setSameLevelBoxes P ni).2.1.sk (setSameLevelBoxes P ni).2.1.sj i) ∧
    (P.nx3 = 1 →
      ∀ j ∈ rangeInt (setSameLevelBoxes P ni).2.2.sj (setSameLevelBoxes P ni).2.2.ej,
        ∀ i ∈ rangeInt (setSameLevelBoxes P ni).2.2.si (setSameLevelBoxes P ni).2.2.ei,
          (SetBoundarySameLevel P buf x1f x2f x3f ni).2.2
              ((setSameLevelBoxes P ni).2.2.sk + 1) j i
            = (SetBoundarySameLevel P buf x1f x2f x3f ni).2.2
              (setSameLevelBoxes P ni).2.2.sk j i) := by
  constructor
  · intro hx2 i hi
    show (if P.nx2 = 1 then
        replicateX2 (UnpackData buf x2f (setSameLevelBoxes P ni).2.1
          (UnpackData buf x1f (setSameLevelBoxes P ni).1 0).2).1
          (setSameLevelBoxes P ni).2.1
      else _) _ _ _ = _
    rw [if_pos hx2]
    show replicateX2 _ _ _ _ _ = (if P.nx2 = 1 then replicateX2 _ _ else _) _ _ _
    rw [if_pos hx2]
    exact replicateX2_planes _ _ i hi
  · intro hx3 j hj i hi
    show (if P.nx3 = 1 then
        replicateX3 (UnpackData buf x3f (setSameLevelBoxes P ni).2.2
          (UnpackData buf x2f (setSameLevelBoxes P ni).2.1
            (UnpackData buf x1f (setSameLevelBoxes P ni).1 0).2).2).1
          (setSameLevelBoxes P ni).2.2
      else _) _ _ _ = _
    rw [if_pos hx3]
    show replicateX3 _ _ _ _ _ = (if P.nx3 = 1 then replicateX3 _ _ else _) _ _ _
    rw [if_pos hx3]
    exact replicateX3_planes _ _ j hj i hi

/-- Witness for C9: a 1-D block (`nx2 = nx3 = 1`), `+x1` face neighbor; both
mirror planes agree at an unpacked point. -/
theorem SetBoundarySameLevel_degenerate_replication_witness :
    ((SetBoundarySameLevel (α := Int) ⟨⟨2, 5, 0, 0, 0, 0⟩, 1, 1, 2, false⟩
        (List.replicate 20 0) (fun _ _ _ => 0) (fun _ _ _ => 0) (fun _ _ _ => 0)
        ⟨1, 0, 0, 0, 0, .face⟩).2.1 0 1 6
      = (SetBoundarySameLevel (α := Int) ⟨⟨2, 5, 0, 0, 0, 0⟩, 1, 1, 2, false⟩
        (List.replicate 20 0) (fun _ _ _ => 0) (fun _ _ _ => 0) (fun _ _ _ => 0)
        ⟨1, 0, 0, 0, 0, .face⟩).2.1 0 0 6) ∧
    ((SetBoundarySameLevel (α := Int) ⟨⟨2, 5, 0, 0, 0, 0⟩, 1, 1, 2, false⟩
        (List.replicate 20 0) (fun _ _ _ => 0) (fun _ _ _ => 0) (fun _ _ _ => 0)
        ⟨1, 0, 0, 0, 0, .face⟩).2.2 1 0 6
      = (SetBoundarySameLevel (α := Int) ⟨⟨2, 5, 0, 0, 0, 0⟩, 1, 1, 2, false⟩
        (List.replicate 20 0) (fun _ _ _ => 0) (fun _ _ _ => 0) (fun _ _ _ => 0)
        ⟨1, 0, 0, 0, 0, .face⟩).2.2 0 0 6) :=
  ⟨(SetBoundarySameLevel_degenerate_replication ⟨⟨2, 5, 0, 0, 0, 0⟩, 1, 1, 2, false⟩
      (List.replicate 20 0) (fun _ _ _ => 0) (fun _ _ _ => 0) (fun _ _ _ => 0)
      ⟨1, 0, 0, 0, 0, .face⟩).1 rfl 6 (by decide),
   (SetBoundarySameLevel_degenerate_replication ⟨⟨2, 5, 0, 0, 0, 0⟩, 1, 1, 2, false⟩
      (List.replicate 20 0) (fun _ _ _ => 0) (fun _ _ _ => 0) (fun _ _ _ => 0)
      ⟨1, 0, 0, 0, 0, .face⟩).2 rfl 0 (by decide) 6 (by decide)⟩

lemma UnpackData_snd {α : Type} [Inhabited α] (buf : List α) (f : Field α) (b : Box)
    (p : Nat) : (UnpackData buf f b p).2 = p + (boxIndices b).length :=
  writeList_snd buf (boxIndices b) f p

/-- Unpacking a box whose count matches the packed box, at the position where
the packed segment starts, reads back exactly the packed values. -/
lemma unpack_box_reads_packed {α : Type} [Inhabited α] (y f : Field α)
    (bS bL : Box) (buf pre post : List α) (p : Nat)
    (hlen : (boxIndices bS).length = (boxIndices bL).length)
    (hbuf : buf = pre ++ ((boxIndices bL).map fun q => f q.1 q.2.1 q.2.2) ++ post)
    (hp : p = pre.length) :
    (boxIndices bS).map (fun q => appF (UnpackData buf y bS p).1 q)
      = (boxIndices bL).map fun q => f q.1 q.2.1 q.2.2 := by
  subst hbuf
  subst hp
  rw [unpack_reads, hlen,
    show (boxIndices bL).length
      = ((boxIndices bL).map fun q => f q.1 q.2.1 q.2.2).length
      from (List.length_map _ _).symm]
  exact getD_segment pre _ post

/-- Under the intended binding of the receiver's bounds — line 437 read as
`pmb->cellbounds`, the binding every sibling routine of bvals_fc.cpp uses,
which for same-level equal-sized blocks coincides with the sender's — the
same-level pack/unpack pair is an exact round trip for a 3-D configuration
with nonzero offsets: per component the unpack count equals the pack count,
and reading the receiver's unpack box in order returns exactly the sender's
packed values.  Evidence that the round-trip claim is the code's intent and
line 437 a slip. -/
theorem LoadSet_sameLevel_roundtrip_intended {α : Type} [Inhabited α] (P : FcParams)
    (ni ni' : NeighborIndexes) (x1f x2f x3f y1f y2f y3f : Field α)
    (h1 : ni.ox1 ∈ ([-1, 0, 1] : List Int)) (h2 : ni.ox2 ∈ ([-1, 0, 1] : List Int))
    (h3 : ni.ox3 ∈ ([-1, 0, 1] : List Int))
    (hnz : ¬(ni.ox1 = 0 ∧ ni.ox2 = 0 ∧ ni.ox3 = 0))
    (hm1 : ni'.ox1 = -ni.ox1) (hm2 : ni'.ox2 = -ni.ox2) (hm3 : ni'.ox3 = -ni.ox3)
    (hty : ni'.type = ni.type) (h2d : P.nx2 > 1) (h3d : P.nx3 > 1) :
    ((boxIndices (setSameLevelBoxes P ni').1).length
        = (boxIndices (loadSameLevelBoxes P ni).1).length ∧
     (boxIndices (setSameLevelBoxes P ni').2.1).length
        = (boxIndices (loadSameLevelBoxes P ni).2.1).length ∧
     (boxIndices (setSameLevelBoxes P ni').2.2).length
        = (boxIndices (loadSameLevelBoxes P ni).2.2).length) ∧
    ((boxIndices (setSameLevelBoxes P ni').1).map
        (fun q => appF (SetBoundarySameLevel P
          (LoadBoundaryBufferSameLevel P x1f x2f x3f ni) y1f y2f y3f ni').1 q)
      = (boxIndices (loadSameLevelBoxes P ni).1).map (fun q => appF x1f q) ∧
     (boxIndices (setSameLevelBoxes P ni').2.1).map
        (fun q => appF (SetBoundarySameLevel P
          (LoadBoundaryBufferSameLevel P x1f x2f x3f ni) y1f y2f y3f ni').2.1 q)
      = (boxIndices (loadSameLevelBoxes P ni).2.1).map (fun q => appF x2f q) ∧
     (boxIndices (setSameLevelBoxes P ni').2.2).map
        (fun q => appF (SetBoundarySameLevel P
          (LoadBoundaryBufferSameLevel P x1f x2f x3f ni) y1f y2f y3f ni').2.2 q)
      = (boxIndices (loadSameLevelBoxes P ni).2.2).map (fun q => appF x3f q)) := by
  have hnx2 : ¬P.nx2 = 1 := by omega
  have hnx3 : ¬P.nx3 = 1 := by omega
  obtain ⟨hl1, hl2, hl3⟩ := setSameLevel_lengths P ni ni' h1 h2 h3 hm1 hm2 hm3 hty
  have hbuf : LoadBoundaryBufferSameLevel P x1f x2f x3f ni
      = ((boxIndices (loadSameLevelBoxes P ni).1).map fun q => x1f q.1 q.2.1 q.2.2)
        ++ ((boxIndices (loadSameLevelBoxes P ni).2.1).map fun q => x2f q.1 q.2.1 q.2.2)
        ++ ((boxIndices (loadSameLevelBoxes P ni).2.2).map fun q => x3f q.1 q.2.1 q.2.2) := by
    simp only [LoadBoundaryBufferSameLevel, PackData, List.nil_append]
  have hgeq1 : (SetBoundarySameLevel P (LoadBoundaryBufferSameLevel P x1f x2f x3f ni)
        y1f y2f y3f ni').1
      = (UnpackData (LoadBoundaryBufferSameLevel P x1f x2f x3f ni) y1f
          (setSameLevelBoxes P ni').1 0).1 := rfl
  have hgeq2 : (SetBoundarySameLevel P (LoadBoundaryBufferSameLevel P x1f x2f x3f ni)
        y1f y2f y3f ni').2.1
      = (UnpackData (LoadBoundaryBufferSameLevel P x1f x2f x3f ni) y2f
          (setSameLevelBoxes P ni').2.1
          (UnpackData (LoadBoundaryBufferSameLevel P x1f x2f x3f ni) y1f
            (setSameLevelBoxes P ni').1 0).2).1 := by
    show (if P.nx2 = 1 then _ else _) = _
    rw [if_neg hnx2]
  have hgeq3 : (SetBoundarySameLevel P (LoadBoundaryBufferSameLevel P x1f x2f x3f ni)
        y1f y2f y3f ni').2.2
      = (UnpackData (LoadBoundaryBufferSameLevel P x1f x2f x3f ni) y3f
          (setSameLevelBoxes P ni').2.2
          (UnpackData (LoadBoundaryBufferSameLevel P x1f x2f x3f ni) y2f
            (setSameLevelBoxes P ni').2.1
            (UnpackData (LoadBoundaryBufferSameLevel P x1f x2f x3f ni) y1f
              (setSameLevelBoxes P ni').1 0).2).2).1 := by
    show (if P.nx3 = 1 then _ else _) = _
    rw [if_neg hnx3]
  have hlm1 : (boxIndices (loadSameLevelBoxes P ni).1).length
      = ((boxIndices (loadSameLevelBoxes P ni).1).map
          fun q => x1f q.1 q.2.1 q.2.2).length := (List.length_map _ _).symm
  have hlm2 : (boxIndices (loadSameLevelBoxes P ni).2.1).length
      = ((boxIndices (loadSameLevelBoxes P ni).2.1).map
          fun q => x2f q.1 q.2.1 q.2.2).length := (List.length_map _ _).symm
  refine ⟨⟨hl1, hl2, hl3⟩, ?_, ?_, ?_⟩
  · rw [hgeq1]
    refine unpack_box_reads_packed y1f x1f (setSameLevelBoxes P ni').1
      (loadSameLevelBoxes P ni).1 _ []
      (((boxIndices (loadSameLevelBoxes P ni).2.1).map fun q => x2f q.1 q.2.1 q.2.2)
        ++ ((boxIndices (loadSameLevelBoxes P ni).2.2).map
          fun q => x3f q.1 q.2.1 q.2.2)) _ hl1 ?_ rfl
    rw [hbuf, List.nil_append, ← List.append_assoc]
  · rw [hgeq2]
    refine unpack_box_reads_packed y2f x2f (setSameLevelBoxes P ni').2.1
      (loadSameLevelBoxes P ni).2.1 _
      ((boxIndices (loadSameLevelBoxes P ni).1).map fun q => x1f q.1 q.2.1 q.2.2)
      ((boxIndices (loadSameLevelBoxes P ni).2.2).map fun q => x3f q.1 q.2.1 q.2.2)
      _ hl2 hbuf ?_
    rw [UnpackData_snd, Nat.zero_add, hl1, hlm1]
  · rw [hgeq3]
    refine unpack_box_reads_packed y3f x3f (setSameLevelBoxes P ni').2.2
      (loadSameLevelBoxes P ni).2.2 _
      ((((boxIndices (loadSameLevelBoxes P ni).1).map fun q => x1f q.1 q.2.1 q.2.2))
        ++ ((boxIndices (loadSameLevelBoxes P ni).2.1).map
          fun q => x2f q.1 q.2.1 q.2.2)) [] _ hl3 ?_ ?_
    · rw [hbuf, List.append_nil]
    · rw [UnpackData_snd, UnpackData_snd, Nat.zero_add, hl1, hl2, List.length_append,
        hlm1, hlm2]

/-- Concrete instance of the intended-binding round trip: a `2 × 2 × 2` block
with ghost width 1 and a `+x1` face neighbor. -/
theorem LoadSet_sameLevel_roundtrip_intended_instance :
    ((boxIndices (setSameLevelBoxes ⟨⟨1, 2, 1, 2, 1, 2⟩, 2, 2, 1, false⟩ ⟨-1, 0, 0, 0, 0, NeighborConnect.face⟩).1).length
        = (boxIndices (loadSameLevelBoxes ⟨⟨1, 2, 1, 2, 1, 2⟩, 2, 2, 1, false⟩ ⟨1, 0, 0, 0, 0, NeighborConnect.face⟩).1).length ∧
     (boxIndices (setSameLevelBoxes ⟨⟨1, 2, 1, 2, 1, 2⟩, 2, 2, 1, false⟩ ⟨-1, 0, 0, 0, 0, NeighborConnect.face⟩).2.1).length
        = (boxIndices (loadSameLevelBoxes ⟨⟨1, 2, 1, 2, 1, 2⟩, 2, 2, 1, false⟩ ⟨1, 0, 0, 0, 0, NeighborConnect.face⟩).2.1).length ∧
     (boxIndices (setSameLevelBoxes ⟨⟨1, 2, 1, 2, 1, 2⟩, 2, 2, 1, false⟩ ⟨-1, 0, 0, 0, 0, NeighborConnect.face⟩).2.2).length
        = (boxIndices (loadSameLevelBoxes ⟨⟨1, 2, 1, 2, 1, 2⟩, 2, 2, 1, false⟩ ⟨1, 0, 0, 0, 0, NeighborConnect.face⟩).2.2).length) ∧
    ((boxIndices (setSameLevelBoxes ⟨⟨1, 2, 1, 2, 1, 2⟩, 2, 2, 1, false⟩ ⟨-1, 0, 0, 0, 0, NeighborConnect.face⟩).1).map
        (fun q => appF (SetBoundarySameLevel ⟨⟨1, 2, 1, 2, 1, 2⟩, 2, 2, 1, false⟩
          (LoadBoundaryBufferSameLevel ⟨⟨1, 2, 1, 2, 1, 2⟩, 2, 2, 1, false⟩ (fun k j i => k * 100 + j * 10 + i : Field Int) (fun k j i => k * 100 + j * 10 + i + 1 : Field Int) (fun k j i => k * 100 + j * 10 + i + 2 : Field Int) ⟨1, 0, 0, 0, 0, NeighborConnect.face⟩) (fun _ _ _ => (0 : Int) : Field Int) (fun _ _ _ => (0 : Int) : Field Int) (fun _ _ _ => (0 : Int) : Field Int) ⟨-1, 0, 0, 0, 0, NeighborConnect.face⟩).1 q)
      = (boxIndices (loadSameLevelBoxes ⟨⟨1, 2, 1, 2, 1, 2⟩, 2, 2, 1, false⟩ ⟨1, 0, 0, 0, 0, NeighborConnect.face⟩).1).map (fun q => appF (fun k j i => k * 100 + j * 10 + i : Field Int) q) ∧
     (boxIndices (setSameLevelBoxes ⟨⟨1, 2, 1, 2, 1, 2⟩, 2, 2, 1, false⟩ ⟨-1, 0, 0, 0, 0, NeighborConnect.face⟩).2.1).map
        (fun q => appF (SetBoundarySameLevel ⟨⟨1, 2, 1, 2, 1, 2⟩, 2, 2, 1, false⟩
          (LoadBoundaryBufferSameLevel ⟨⟨1, 2, 1, 2, 1, 2⟩, 2, 2, 1, false⟩ (fun k j i => k * 100 + j * 10 + i : Field Int) (fun k j i => k * 100 + j * 10 + i + 1 : Field Int) (fun k j i => k * 100 + j * 10 + i + 2 : Field Int) ⟨1, 0, 0, 0, 0, NeighborConnect.face⟩) (fun _ _ _ => (0 : Int) : Field Int) (fun _ _ _ => (0 : Int) : Field Int) (fun _ _ _ => (0 : Int) : Field Int) ⟨-1, 0, 0, 0, 0, NeighborConnect.face⟩).2.1 q)
      = (boxIndices (loadSameLevelBoxes ⟨⟨1, 2, 1, 2, 1, 2⟩, 2, 2, 1, false⟩ ⟨1, 0, 0, 0, 0, NeighborConnect.face⟩).2.1).map (fun q => appF (fun k j i => k * 100 + j * 10 + i + 1 : Field Int) q) ∧
     (boxIndices (setSameLevelBoxes ⟨⟨1, 2, 1, 2, 1, 2⟩, 2, 2, 1, false⟩ ⟨-1, 0, 0, 0, 0, NeighborConnect.face⟩).2.2).map
        (fun q => appF (SetBoundarySameLevel ⟨⟨1, 2, 1, 2, 1, 2⟩, 2, 2, 1, false⟩
          (LoadBoundaryBufferSameLevel ⟨⟨1, 2, 1, 2, 1, 2⟩, 2, 2, 1, false⟩ (fun k j i => k * 100 + j * 10 + i : Field Int) (fun k j i => k * 100 + j * 10 + i + 1 : Field Int) (fun k j i => k * 100 + j * 10 + i + 2 : Field Int) ⟨1, 0, 0, 0, 0, NeighborConnect.face⟩) (fun _ _ _ => (0 : Int) : Field Int) (fun _ _ _ => (0 : Int) : Field Int) (fun _ _ _ => (0 : Int) : Field Int) ⟨-1, 0, 0, 0, 0, NeighborConnect.face⟩).2.2 q)
      = (boxIndices (loadSameLevelBoxes ⟨⟨1, 2, 1, 2, 1, 2⟩, 2, 2, 1, false⟩ ⟨1, 0, 0, 0, 0, NeighborConnect.face⟩).2.2).map (fun q => appF (fun k j i => k * 100 + j * 10 + i + 2 : Field Int) q)) :=
  LoadSet_sameLevel_roundtrip_intended ⟨⟨1, 2, 1, 2, 1, 2⟩, 2, 2, 1, false⟩ ⟨1, 0, 0, 0, 0, NeighborConnect.face⟩ ⟨-1, 0, 0, 0, 0, NeighborConnect.face⟩ (fun k j i => k * 100 + j * 10 + i : Field Int) (fun k j i => k * 100 + j * 10 + i + 1 : Field Int) (fun k j i => k * 100 + j * 10 + i + 2 : Field Int) (fun _ _ _ => (0 : Int) : Field Int) (fun _ _ _ => (0 : Int) : Field Int) (fun _ _ _ => (0 : Int) : Field Int)
    (by decide) (by decide) (by decide) (by decide) (by decide) (by decide) (by decide)
    rfl (by decide) (by decide)

/-- C2 failing input (the claim is the intent; the code has a slip):
`SetBoundarySameLevel` computes its unpack boxes from the local `cellbounds`
reference that bvals_fc.cpp:437 initializes with itself, so `pmb->cellbounds`
is never read and the bounds are indeterminate.  Sender: a `2 × 2 × 2` block
with ghost width 1, bounds `(1,2)^3`, `+x1` face neighbor — the `x1f` pack
count is 4.  Under the exhibited valuation `(2,4)^3` of the dangling
reference, the mirrored receiver's `x1f` unpack count is 9, violating the
claim's count equality; under the intended `pmb->cellbounds` binding it is 4
as the claim requires. -/
theorem SetBoundarySameLevel_bounds_mismatch_failing_input :
    (boxIndices (loadSameLevelBoxes ⟨⟨1, 2, 1, 2, 1, 2⟩, 2, 2, 1, false⟩
        ⟨1, 0, 0, 0, 0, NeighborConnect.face⟩).1).length = 4 ∧
    (boxIndices (setSameLevelBoxes ⟨⟨2, 4, 2, 4, 2, 4⟩, 2, 2, 1, false⟩
        ⟨-1, 0, 0, 0, 0, NeighborConnect.face⟩).1).length = 9 ∧
    ¬((boxIndices (setSameLevelBoxes ⟨⟨2, 4, 2, 4, 2, 4⟩, 2, 2, 1, false⟩
          ⟨-1, 0, 0, 0, 0, NeighborConnect.face⟩).1).length
        = (boxIndices (loadSameLevelBoxes ⟨⟨1, 2, 1, 2, 1, 2⟩, 2, 2, 1, false⟩
          ⟨1, 0, 0, 0, 0, NeighborConnect.face⟩).1).length) ∧
    (boxIndices (setSameLevelBoxes ⟨⟨1, 2, 1, 2, 1, 2⟩, 2, 2, 1, false⟩
        ⟨-1, 0, 0, 0, 0, NeighborConnect.face⟩).1).length = 4 := by
  refine ⟨by decide, by decide, by decide, by decide⟩

end Parthenon
